/-
  Verification of the Picker-Scheduler backend (FastAPI + SQLAlchemy + OR-Tools).

  Shallow embedding conventions:
  * Civil dates are integers (days); day 0 is a Monday, so `d % 7` is Python's
    `date.weekday()` (0 = Monday .. 6 = Sunday).
  * Wall-clock times are minutes since midnight (integers); SQL `Time` columns
    compare numerically, exactly as Python `time` compares lexicographically.
  * Persisted float columns are modelled as exact rationals; derived floating
    computations that involve square roots or real powers live in `Real`.
  * A SQLAlchemy session is a record of table row lists; queries are list
    filters in insertion order, `first()` is `List.find?`.
  * Raising `HTTPException` / `ValueError` is modelled with `Option`/sum
    results; human-readable `message`/`details` payloads of findings are
    omitted (no claim concerns them).
-/
import Mathlib

namespace PickerScheduler

/-- Python date.weekday for our integer dates: day 0 is a Monday. -/
def weekday (d : ℤ) : ℤ := d % 7

/-! ## Data model (app/models) -/

inductive ShiftStatus
  | scheduled | called_out | covered | no_show
  deriving DecidableEq

inductive ScheduleStatus
  | draft | published | archived
  deriving DecidableEq

inductive TimeOffStatus
  | pending | approved | denied | cancelled
  deriving DecidableEq

inductive EmployeeStatus
  | active | inactive | on_leave
  deriving DecidableEq

inductive SwapStatus
  | pending | accepted | approved | denied | cancelled
  deriving DecidableEq

structure Store where
  id : Nat
  code : String
  operating_start : Option ℤ  -- hour of day, nullable column with default 8
  operating_end : Option ℤ    -- hour of day, nullable column with default 22
  deriving DecidableEq

structure Employee where
  id : Nat
  user_id : Nat
  store_id : Nat
  status : EmployeeStatus
  deriving DecidableEq

structure Schedule where
  id : Nat
  store_id : Nat
  week_start_date : ℤ
  status : ScheduleStatus
  created_by : Nat
  published_at : Option ℤ
  deriving DecidableEq

structure Shift where
  id : Option Nat      -- None until persisted (sentinel id used by validation)
  schedule_id : Nat
  employee_id : Nat
  date : ℤ
  start_time : ℤ       -- minutes since midnight
  end_time : ℤ
  break_minutes : ℤ
  status : ShiftStatus
  callout_reason : Option String
  callout_time : Option ℤ
  original_employee_id : Option Nat
  covered_by_id : Option Nat
  deriving DecidableEq

structure Availability where
  employee_id : Nat
  day_of_week : ℤ
  is_available : Bool
  preferred_start : Option ℤ  -- minutes since midnight
  preferred_end : Option ℤ
  deriving DecidableEq

structure TimeOffRequest where
  id : Nat
  employee_id : Nat
  start_date : ℤ
  end_date : ℤ
  status : TimeOffStatus
  deriving DecidableEq

structure LaborStandard where
  store_id : Nat
  orders_per_picker_hour : ℚ
  min_shift_hours : ℤ
  max_shift_hours : ℤ
  deriving DecidableEq

structure HistoricalOrder where
  store_id : Nat
  date : ℤ
  hour : ℤ
  order_count : ℚ
  day_of_week : Option ℤ
  deriving DecidableEq

structure OrderForecast where
  store_id : Nat
  date : ℤ
  hour : ℤ
  predicted_orders : ℚ
  actual_orders : Option ℚ
  deriving DecidableEq

structure ShiftSwap where
  id : Nat
  requester_shift_id : Nat
  requested_shift_id : Option Nat
  status : SwapStatus
  approved_by : Option Nat
  approved_at : Option ℤ
  deriving DecidableEq

/-- The persisted relational state (one session over all tables). -/
structure DB where
  stores : List Store := []
  employees : List Employee := []
  schedules : List Schedule := []
  shifts : List Shift := []
  availabilities : List Availability := []
  time_off_requests : List TimeOffRequest := []
  labor_standards : List LaborStandard := []
  historical_orders : List HistoricalOrder := []
  order_forecasts : List OrderForecast := []
  swaps : List ShiftSwap := []
  deriving DecidableEq

/-! ## Process-wide configuration (app/config.py defaults) -/

namespace settings

def max_hours_per_week : ℤ := 44
def max_hours_per_day : ℤ := 8
def days_on_per_week : ℤ := 6
def break_minutes_8hr_shift : ℤ := 30
def break_minutes_9hr_shift : ℤ := 60
def store_open_hour : ℤ := 8
def store_close_hour : ℤ := 22
def default_orders_per_picker_hour : ℚ := 10
def default_min_shift_hours : ℤ := 4
def default_max_shift_hours : ℤ := 8

end settings

/-! ## Shift derived quantities (app/models/shift.py properties) -/

/-- models/shift.py `duration_hours`: elapsed minutes minus break, in hours. -/
def Shift.durationHours (s : Shift) : ℚ :=
  ((s.end_time - s.start_time - s.break_minutes : ℤ) : ℚ) / 60

/-- models/shift.py `total_hours`: elapsed time in hours, break included. -/
def Shift.totalHours (s : Shift) : ℚ :=
  ((s.end_time - s.start_time : ℤ) : ℚ) / 60

/-! ## C6: weekly hours as computed by the shift lifecycle routes
    (app/api/routes/shifts.py) -/

/-- routes/shifts.py `get_week_start`: Monday of the week containing d. -/
def get_week_start (d : ℤ) : ℤ := d - weekday d

/-- routes/shifts.py `get_employee_week_hours`: sums `duration_hours` over the
employee's shifts in [week_start, week_start+6] whose status is in
(SCHEDULED, COVERED). -/
def get_employee_week_hours (db : DB) (employee_id : Nat) (week_start : ℤ) : ℚ :=
  let week_end := week_start + 6
  let shifts := db.shifts.filter (fun s =>
    decide (s.employee_id = employee_id) &&
    decide (week_start ≤ s.date) && decide (s.date ≤ week_end) &&
    (decide (s.status = ShiftStatus.scheduled) || decide (s.status = ShiftStatus.covered)))
  shifts.foldl (fun acc s => acc + s.durationHours) 0

/-- routes/shifts.py `mark_callout`: requires the shift to exist and be in
SCHEDULED status; records reason and time, captures `original_employee_id`,
and flips the status to CALLED_OUT.  Returns `none` on the 404/400 paths. -/
def mark_callout (db : DB) (shift_id : Nat) (reason : Option String) (now : ℤ) :
    Option DB :=
  match db.shifts.find? (fun s => decide (s.id = some shift_id)) with
  | none => none
  | some s =>
    if s.status = ShiftStatus.scheduled then
      some { db with
        shifts := db.shifts.map (fun t =>
          if decide (t.id = some shift_id) then
            { t with status := ShiftStatus.called_out,
                     callout_reason := reason,
                     callout_time := some now,
                     original_employee_id := some t.employee_id }
          else t) }
    else none

/-! ## Compliance Engine (app/services/compliance.py)

`employee_name`, `message` and `details` payloads of findings are dropped:
no claim concerns them, and all claim-relevant structure (type, severity,
employee, date) is kept. -/

inductive ViolationType
  | weekly_hours_exceeded
  | daily_hours_exceeded
  | consecutive_days_exceeded
  | insufficient_break
  | outside_operating_hours
  | time_off_conflict
  | availability_conflict
  | shift_overlap
  deriving DecidableEq

inductive SeverityLevel
  | error | warning | info
  deriving DecidableEq

structure ComplianceViolation where
  vtype : ViolationType
  severity : SeverityLevel
  employee_id : Nat
  date : Option ℤ
  deriving DecidableEq

structure ComplianceResult where
  is_compliant : Bool
  violations : List ComplianceViolation
  warnings : List ComplianceViolation
  info : List ComplianceViolation
  deriving DecidableEq

/-- Queries in the engine join `Shift` against `Schedule` on the foreign key. -/
def shiftsJoinSchedule (db : DB) : List Shift :=
  db.shifts.filter (fun s => db.schedules.any (fun sc => decide (sc.id = s.schedule_id)))

/-- compliance.py `_get_shift_duration_hours` (same formula as the model
property `duration_hours`). -/
def cDurationHours (s : Shift) : ℚ := s.durationHours

/-- compliance.py `_get_shift_total_hours`. -/
def cTotalHours (s : Shift) : ℚ := s.totalHours

/-- compliance.py `validate_weekly_hours`. -/
def validate_weekly_hours (db : DB) (employee_id : Nat) (week_start : ℤ)
    (proposed_shifts : List Shift := []) : List ComplianceViolation :=
  let week_end := week_start + 6
  let existing := (shiftsJoinSchedule db).filter (fun s =>
    decide (s.employee_id = employee_id) &&
    decide (week_start ≤ s.date) && decide (s.date ≤ week_end))
  let base := existing.foldl (fun acc s => acc + cDurationHours s) 0
  let total := proposed_shifts.foldl (fun acc s =>
    if week_start ≤ s.date ∧ s.date ≤ week_end then acc + cDurationHours s else acc) base
  if total > (settings.max_hours_per_week : ℚ) then
    [⟨ViolationType.weekly_hours_exceeded, SeverityLevel.error, employee_id, none⟩]
  else if total > (settings.max_hours_per_week : ℚ) - 4 then
    [⟨ViolationType.weekly_hours_exceeded, SeverityLevel.warning, employee_id, none⟩]
  else []

/-- compliance.py `validate_daily_hours`. -/
def validate_daily_hours (db : DB) (employee_id : Nat) (target_date : ℤ)
    (proposed_shift : Option Shift := none) : List ComplianceViolation :=
  let existing := (shiftsJoinSchedule db).filter (fun s =>
    decide (s.employee_id = employee_id) && decide (s.date = target_date))
  let base := existing.foldl (fun acc s => acc + cDurationHours s) 0
  let total := match proposed_shift with
    | some p => if p.date = target_date then base + cDurationHours p else base
    | none => base
  if total > (settings.max_hours_per_day : ℚ) then
    [⟨ViolationType.daily_hours_exceeded, SeverityLevel.error, employee_id,
      some target_date⟩]
  else []

/-- compliance.py `validate_consecutive_days`. -/
def validate_consecutive_days (db : DB) (employee_id : Nat) (week_start : ℤ)
    (proposed_shifts : List Shift := []) : List ComplianceViolation :=
  let week_end := week_start + 6
  let existing := (shiftsJoinSchedule db).filter (fun s =>
    decide (s.employee_id = employee_id) &&
    decide (week_start ≤ s.date) && decide (s.date ≤ week_end))
  let work_dates := (existing.map (fun s => s.date)) ++
    ((proposed_shifts.filter (fun s =>
      decide (week_start ≤ s.date) && decide (s.date ≤ week_end))).map (fun s => s.date))
  let days_worked := work_dates.dedup.length
  if (days_worked : ℤ) > settings.days_on_per_week then
    [⟨ViolationType.consecutive_days_exceeded, SeverityLevel.error, employee_id, none⟩]
  else []

/-- compliance.py `validate_break_requirements`. -/
def validate_break_requirements (s : Shift) : List ComplianceViolation :=
  let total_hours := cTotalHours s
  let required_break : ℤ :=
    if total_hours ≥ 9 then settings.break_minutes_9hr_shift
    else if total_hours ≥ 8 then settings.break_minutes_8hr_shift
    else 0
  if s.break_minutes < required_break then
    [⟨ViolationType.insufficient_break, SeverityLevel.error, s.employee_id,
      some s.date⟩]
  else []

/-- compliance.py `validate_time_off_conflicts`. -/
def validate_time_off_conflicts (db : DB) (employee_id : Nat) (target_date : ℤ) :
    List ComplianceViolation :=
  match db.time_off_requests.find? (fun t =>
      decide (t.employee_id = employee_id) && decide (t.status = TimeOffStatus.approved) &&
      decide (t.start_date ≤ target_date) && decide (t.end_date ≥ target_date)) with
  | some _ =>
    [⟨ViolationType.time_off_conflict, SeverityLevel.error, employee_id,
      some target_date⟩]
  | none => []

/-- compliance.py `validate_availability` (warning severity). -/
def validate_availability (db : DB) (employee_id : Nat) (target_date : ℤ) :
    List ComplianceViolation :=
  let day_of_week := weekday target_date
  match db.availabilities.find? (fun a =>
      decide (a.employee_id = employee_id) && decide (a.day_of_week = day_of_week)) with
  | some a =>
    if !a.is_available then
      [⟨ViolationType.availability_conflict, SeverityLevel.warning, employee_id,
        some target_date⟩]
    else []
  | none => []

/-- compliance.py `validate_shift_overlap`: one error per overlapping
same-employee same-date persisted shift, excluding `exclude_shift_id`. -/
def validate_shift_overlap (db : DB) (employee_id : Nat) (target_date : ℤ)
    (start_time end_time : ℤ) (exclude_shift_id : Option Nat := none) :
    List ComplianceViolation :=
  let base := (shiftsJoinSchedule db).filter (fun (s : Shift) =>
    decide (s.employee_id = employee_id) && decide (s.date = target_date))
  let existing := match exclude_shift_id with
    | some i => base.filter (fun (s : Shift) => !decide (s.id = some i))
    | none => base
  (existing.filter (fun (ex : Shift) =>
    !(decide (end_time ≤ ex.start_time) || decide (start_time ≥ ex.end_time)))).map
    (fun _ =>
      ⟨ViolationType.shift_overlap, SeverityLevel.error, employee_id,
        some target_date⟩)

/-- Split a list of findings by severity into a `ComplianceResult`. -/
def categorize (all_violations : List ComplianceViolation) : ComplianceResult :=
  let errors := all_violations.filter (fun v => decide (v.severity = SeverityLevel.error))
  let warns := all_violations.filter (fun v => decide (v.severity = SeverityLevel.warning))
  let infos := all_violations.filter (fun v => decide (v.severity = SeverityLevel.info))
  ⟨decide (errors.length = 0), errors, warns, infos⟩

/-- compliance.py `validate_shift`: runs all seven checks for one shift. -/
def validate_shift (db : DB) (s : Shift) (week_start? : Option ℤ := none) :
    ComplianceResult :=
  let week_start := match week_start? with
    | some w => w
    | none => s.date - weekday s.date
  let all_violations :=
    validate_daily_hours db s.employee_id s.date (some s) ++
    validate_weekly_hours db s.employee_id week_start [s] ++
    validate_consecutive_days db s.employee_id week_start [s] ++
    validate_break_requirements s ++
    validate_time_off_conflicts db s.employee_id s.date ++
    validate_availability db s.employee_id s.date ++
    validate_shift_overlap db s.employee_id s.date s.start_time s.end_time s.id
  categorize all_violations

/-- Python dict grouping: employee ids in first-occurrence order, each with
that employee's shifts in original order. -/
def groupByEmployee (shifts : List Shift) : List (Nat × List Shift) :=
  ((shifts.map (fun s => s.employee_id)).dedup).map
    (fun e => (e, shifts.filter (fun s => decide (s.employee_id = e))))

/-- Dedup key used by `validate_schedule`: (type, employee, date). -/
def vkey (v : ComplianceViolation) : ViolationType × Nat × Option ℤ :=
  (v.vtype, v.employee_id, v.date)

/-- compliance.py `validate_schedule` deduplication: keep the first finding
for each (type, employee, date) key. -/
def dedupViolations :
    List (ViolationType × Nat × Option ℤ) → List ComplianceViolation →
    List ComplianceViolation
  | _, [] => []
  | seen, v :: rest =>
    if vkey v ∈ seen then dedupViolations seen rest
    else v :: dedupViolations (vkey v :: seen) rest

/-- compliance.py `validate_schedule`: weekly-hours and consecutive-days per
employee, then daily-hours, break, time-off and availability per shift; the
findings are deduplicated by (type, employee, date) and categorized. -/
def validate_schedule (db : DB) (schedule_id : Nat) : ComplianceResult :=
  match db.schedules.find? (fun sc => decide (sc.id = schedule_id)) with
  | none =>
    ⟨false,
     [⟨ViolationType.weekly_hours_exceeded, SeverityLevel.error, 0, none⟩],
     [], []⟩
  | some schedule =>
    let week_start := schedule.week_start_date
    let shifts := db.shifts.filter (fun s => decide (s.schedule_id = schedule_id))
    let all_violations := (groupByEmployee shifts).foldl
      (fun acc p =>
        acc ++
        validate_weekly_hours db p.1 week_start ++
        validate_consecutive_days db p.1 week_start ++
        p.2.foldl (fun acc2 s =>
          acc2 ++
          validate_daily_hours db p.1 s.date ++
          validate_break_requirements s ++
          validate_time_off_conflicts db p.1 s.date ++
          validate_availability db p.1 s.date) []) []
    categorize (dedupViolations [] all_violations)

/-! ## Shift endpoints (app/api/routes/shifts.py): create and update -/

/-- compliance.py module-level `get_required_break_minutes`. -/
def get_required_break_minutes (shift_hours : ℚ) : ℤ :=
  if shift_hours ≥ 9 then settings.break_minutes_9hr_shift
  else if shift_hours ≥ 8 then settings.break_minutes_8hr_shift
  else 0

/-- schemas/shift.py `ShiftCreate`. -/
structure ShiftCreate where
  employee_id : Nat
  date : ℤ
  start_time : ℤ
  end_time : ℤ
  break_minutes : ℤ := 30
  schedule_id : Nat
  deriving DecidableEq

/-- schemas/shift.py `ShiftUpdate` (`exclude_unset` fields are `none`). -/
structure ShiftUpdate where
  employee_id : Option Nat := none
  date : Option ℤ := none
  start_time : Option ℤ := none
  end_time : Option ℤ := none
  break_minutes : Option ℤ := none
  deriving DecidableEq

/-- The auto-calculate-break block shared by `create_shift` and
`update_shift`: derive the elapsed hours, look up the required break, and
silently raise `break_minutes` when it falls short. -/
def autoAdjustBreak (s : Shift) : Shift :=
  let total_hours : ℚ := ((s.end_time - s.start_time : ℤ) : ℚ) / 60
  let required_break := get_required_break_minutes total_hours
  if s.break_minutes < required_break then
    { s with break_minutes := required_break }
  else s

/-- Outcome of the create/update shift endpoints: 404, 422 with violations,
409 with warnings, or success carrying the new session state and the shift. -/
inductive ShiftRouteResult
  | not_found
  | unprocessable (result : ComplianceResult)
  | conflict (result : ComplianceResult)
  | ok (db : DB) (s : Shift)
  deriving DecidableEq

/-- Autoincrement for the shifts table. -/
def newShiftId (db : DB) : Nat :=
  db.shifts.foldl (fun m s => max m (s.id.getD 0)) 0 + 1

/-- routes/shifts.py `create_shift`: verify the schedule exists, build the
unpersisted shift (sentinel id `none`), silently raise `break_minutes` to the
required minimum for the elapsed length, validate unless disabled, persist. -/
def create_shift (db : DB) (data : ShiftCreate) (validate force : Bool) :
    ShiftRouteResult :=
  match db.schedules.find? (fun sc => decide (sc.id = data.schedule_id)) with
  | none => ShiftRouteResult.not_found
  | some _ =>
    let shift0 : Shift :=
      { id := none, schedule_id := data.schedule_id,
        employee_id := data.employee_id, date := data.date,
        start_time := data.start_time, end_time := data.end_time,
        break_minutes := data.break_minutes, status := ShiftStatus.scheduled,
        callout_reason := none, callout_time := none,
        original_employee_id := none, covered_by_id := none }
    let shift1 := autoAdjustBreak shift0
    let persist : ShiftRouteResult :=
      let s := { shift1 with id := some (newShiftId db) }
      ShiftRouteResult.ok { db with shifts := db.shifts ++ [s] } s
    if validate then
      let r := validate_shift db shift1
      if !r.is_compliant then ShiftRouteResult.unprocessable r
      else if !r.warnings.isEmpty && !force then ShiftRouteResult.conflict r
      else persist
    else persist

/-- routes/shifts.py `update_shift`: apply the provided fields, re-derive the
required break only when `start_time` or `end_time` was in the payload, then
validate against the session (the pending mutation is visible to the queries
through autoflush) and commit, or roll back on a blocking finding. -/
def update_shift (db : DB) (shift_id : Nat) (data : ShiftUpdate)
    (validate force : Bool) : ShiftRouteResult :=
  match db.shifts.find? (fun s => decide (s.id = some shift_id)) with
  | none => ShiftRouteResult.not_found
  | some s0 =>
    let s1 : Shift :=
      { s0 with
        employee_id := data.employee_id.getD s0.employee_id,
        date := data.date.getD s0.date,
        start_time := data.start_time.getD s0.start_time,
        end_time := data.end_time.getD s0.end_time,
        break_minutes := data.break_minutes.getD s0.break_minutes }
    let s2 :=
      if data.start_time.isSome || data.end_time.isSome then autoAdjustBreak s1
      else s1
    let db_flushed :=
      { db with shifts := db.shifts.map (fun t =>
          if decide (t.id = some shift_id) then s2 else t) }
    if validate then
      let r := validate_shift db_flushed s2
      if !r.is_compliant then ShiftRouteResult.unprocessable r
      else if !r.warnings.isEmpty && !force then ShiftRouteResult.conflict r
      else ShiftRouteResult.ok db_flushed s2
    else ShiftRouteResult.ok db_flushed s2

/-! ## Helper lemmas about the engine -/

theorem foldl_append_init {α β : Type} (f : List α → β → List α)
    (hf : ∀ acc b, f acc b = acc ++ f [] b) :
    ∀ (l : List β) (init : List α), l.foldl f init = init ++ l.foldl f [] := by
  intro l
  induction l with
  | nil => intro init; simp
  | cons b t ih =>
    intro init
    simp only [List.foldl_cons]
    rw [ih (f init b), ih (f [] b), hf init b, List.append_assoc]

theorem mem_foldl_append {α β : Type} (f : List α → β → List α)
    (hf : ∀ acc b, f acc b = acc ++ f [] b) (l : List β) (v : α) :
    v ∈ l.foldl f [] ↔ ∃ b ∈ l, v ∈ f [] b := by
  induction l with
  | nil => simp
  | cons b t ih =>
    simp only [List.foldl_cons]
    rw [foldl_append_init f hf t (f [] b)]
    simp only [List.nil_append, List.mem_append, ih, List.mem_cons]
    constructor
    · rintro (h | ⟨b2, hb2, hv⟩)
      · exact ⟨b, Or.inl rfl, h⟩
      · exact ⟨b2, Or.inr hb2, hv⟩
    · rintro ⟨b2, hb2 | hb2, hv⟩
      · subst hb2; exact Or.inl hv
      · exact Or.inr ⟨b2, hb2, hv⟩

theorem vtype_of_mem_weekly {db : DB} {eid : Nat} {w : ℤ} {ps : List Shift}
    {v : ComplianceViolation} (h : v ∈ validate_weekly_hours db eid w ps) :
    v.vtype = ViolationType.weekly_hours_exceeded := by
  simp only [validate_weekly_hours] at h
  split at h
  · simp only [List.mem_singleton] at h; subst h; rfl
  · split at h
    · simp only [List.mem_singleton] at h; subst h; rfl
    · simp at h

theorem vtype_of_mem_daily {db : DB} {eid : Nat} {d : ℤ} {ps : Option Shift}
    {v : ComplianceViolation} (h : v ∈ validate_daily_hours db eid d ps) :
    v.vtype = ViolationType.daily_hours_exceeded := by
  simp only [validate_daily_hours] at h
  split at h
  · simp only [List.mem_singleton] at h; subst h; rfl
  · simp at h

theorem vtype_of_mem_consecutive {db : DB} {eid : Nat} {w : ℤ} {ps : List Shift}
    {v : ComplianceViolation} (h : v ∈ validate_consecutive_days db eid w ps) :
    v.vtype = ViolationType.consecutive_days_exceeded := by
  simp only [validate_consecutive_days] at h
  split at h
  · simp only [List.mem_singleton] at h; subst h; rfl
  · simp at h

theorem vtype_of_mem_break {s : Shift} {v : ComplianceViolation}
    (h : v ∈ validate_break_requirements s) :
    v.vtype = ViolationType.insufficient_break := by
  simp only [validate_break_requirements] at h
  repeat' split at h
  all_goals simp_all

theorem vtype_of_mem_time_off {db : DB} {eid : Nat} {d : ℤ}
    {v : ComplianceViolation} (h : v ∈ validate_time_off_conflicts db eid d) :
    v.vtype = ViolationType.time_off_conflict := by
  simp only [validate_time_off_conflicts] at h
  split at h
  · simp only [List.mem_singleton] at h; subst h; rfl
  · simp at h

theorem vtype_of_mem_availability {db : DB} {eid : Nat} {d : ℤ}
    {v : ComplianceViolation} (h : v ∈ validate_availability db eid d) :
    v.vtype = ViolationType.availability_conflict := by
  simp only [validate_availability] at h
  split at h
  · split at h
    · simp only [List.mem_singleton] at h; subst h; rfl
    · simp at h
  · simp at h

theorem vtype_of_mem_overlap {db : DB} {eid : Nat} {d s e : ℤ} {ex : Option Nat}
    {v : ComplianceViolation} (h : v ∈ validate_shift_overlap db eid d s e ex) :
    v.vtype = ViolationType.shift_overlap := by
  simp only [validate_shift_overlap, List.mem_map] at h
  obtain ⟨_, _, hv⟩ := h
  subst hv; rfl

theorem mem_of_mem_categorize {l : List ComplianceViolation}
    {v : ComplianceViolation}
    (h : v ∈ (categorize l).violations ++ (categorize l).warnings ++
        (categorize l).info) : v ∈ l := by
  simp only [categorize, List.mem_append, List.mem_filter] at h
  rcases h with (⟨hm, _⟩ | ⟨hm, _⟩) | ⟨hm, _⟩ <;> exact hm

theorem mem_of_mem_dedup {seen : List (ViolationType × Nat × Option ℤ)}
    {l : List ComplianceViolation} {v : ComplianceViolation}
    (h : v ∈ dedupViolations seen l) : v ∈ l := by
  induction l generalizing seen with
  | nil => simp [dedupViolations] at h
  | cons w t ih =>
    simp only [dedupViolations] at h
    split at h
    · exact List.mem_cons_of_mem _ (ih h)
    · rcases List.mem_cons.mp h with h1 | h1
      · subst h1; exact List.mem_cons_self _ _
      · exact List.mem_cons_of_mem _ (ih h1)

theorem key_not_seen_of_mem_dedup
    {seen : List (ViolationType × Nat × Option ℤ)}
    {l : List ComplianceViolation} {v : ComplianceViolation}
    (h : v ∈ dedupViolations seen l) : vkey v ∉ seen := by
  induction l generalizing seen with
  | nil => simp [dedupViolations] at h
  | cons w t ih =>
    simp only [dedupViolations] at h
    split at h
    · exact ih h
    · rcases List.mem_cons.mp h with h1 | h1
      · subst h1; assumption
      · intro hmem
        exact ih h1 (List.mem_cons_of_mem _ hmem)

theorem pairwise_dedup (seen : List (ViolationType × Nat × Option ℤ))
    (l : List ComplianceViolation) :
    (dedupViolations seen l).Pairwise (fun a b => vkey a ≠ vkey b) := by
  induction l generalizing seen with
  | nil => simp [dedupViolations]
  | cons w t ih =>
    simp only [dedupViolations]
    split
    · exact ih seen
    · refine List.Pairwise.cons ?_ (ih (vkey w :: seen))
      intro b hb hkey
      exact key_not_seen_of_mem_dedup hb (by simp [hkey])

theorem categorize_concat_perm (l : List ComplianceViolation) :
    ((categorize l).violations ++ (categorize l).warnings ++
      (categorize l).info).Perm l := by
  simp only [categorize]
  have e1 : (l.filter (fun v => !decide (v.severity = SeverityLevel.error))).filter
      (fun v => decide (v.severity = SeverityLevel.warning)) =
      l.filter (fun v => decide (v.severity = SeverityLevel.warning)) := by
    rw [List.filter_filter]
    apply List.filter_congr
    intro x _
    rcases x with ⟨t, sev, e, d⟩
    cases sev <;> rfl
  have e2 : (l.filter (fun v => !decide (v.severity = SeverityLevel.error))).filter
      (fun v => !decide (v.severity = SeverityLevel.warning)) =
      l.filter (fun v => decide (v.severity = SeverityLevel.info)) := by
    rw [List.filter_filter]
    apply List.filter_congr
    intro x _
    rcases x with ⟨t, sev, e, d⟩
    cases sev <;> rfl
  have h2 := List.filter_append_perm
    (fun v => decide (v.severity = SeverityLevel.warning))
    (l.filter (fun v => !decide (v.severity = SeverityLevel.error)))
  rw [e1, e2] at h2
  have h1 := List.filter_append_perm
    (fun v => decide (v.severity = SeverityLevel.error)) l
  have hcomb := (List.Perm.append_left
    (l.filter (fun v => decide (v.severity = SeverityLevel.error))) h2).trans h1
  rw [List.append_assoc]
  exact hcomb

/-! ## C3: what schedule-level validation actually runs -/

theorem mem_validate_schedule_cases {db : DB} {schedule_id : Nat}
    {v : ComplianceViolation}
    (h : v ∈ (validate_schedule db schedule_id).violations ++
        (validate_schedule db schedule_id).warnings ++
        (validate_schedule db schedule_id).info) :
    v.vtype = ViolationType.weekly_hours_exceeded ∨
    v.vtype = ViolationType.consecutive_days_exceeded ∨
    v.vtype = ViolationType.daily_hours_exceeded ∨
    v.vtype = ViolationType.insufficient_break ∨
    v.vtype = ViolationType.time_off_conflict ∨
    v.vtype = ViolationType.availability_conflict := by
  simp only [validate_schedule] at h
  split at h
  · simp only [List.append_nil, List.mem_singleton] at h
    subst h; left; rfl
  · have hm := mem_of_mem_dedup (mem_of_mem_categorize h)
    rw [mem_foldl_append _ (by intro acc b; simp [List.append_assoc])] at hm
    obtain ⟨p, _, hv⟩ := hm
    simp only [List.nil_append, List.mem_append] at hv
    rcases hv with (hv | hv) | hv
    · exact Or.inl (vtype_of_mem_weekly hv)
    · exact Or.inr (Or.inl (vtype_of_mem_consecutive hv))
    · rw [mem_foldl_append _ (by intro acc b; simp [List.append_assoc])] at hv
      obtain ⟨s, _, hv2⟩ := hv
      simp only [List.nil_append, List.mem_append] at hv2
      rcases hv2 with ((hv2 | hv2) | hv2) | hv2
      · exact Or.inr (Or.inr (Or.inl (vtype_of_mem_daily hv2)))
      · exact Or.inr (Or.inr (Or.inr (Or.inl (vtype_of_mem_break hv2))))
      · exact Or.inr (Or.inr (Or.inr (Or.inr (Or.inl (vtype_of_mem_time_off hv2)))))
      · exact Or.inr (Or.inr (Or.inr (Or.inr (Or.inr (vtype_of_mem_availability hv2)))))

/-- C3 (amended): schedule-level validation runs the weekly-hours and
consecutive-days checks per employee and the daily-hours, break, time-off and
availability checks per shift, never produces a shift_overlap finding, and
its findings are deduplicated: the keys (type, employee, date) of the emitted
findings are pairwise distinct. -/
theorem validate_schedule_omits_overlap_and_dedups (db : DB)
    (schedule_id : Nat) :
    (((validate_schedule db schedule_id).violations ++
      (validate_schedule db schedule_id).warnings ++
      (validate_schedule db schedule_id).info).all
        (fun v => !decide (v.vtype = ViolationType.shift_overlap))) = true ∧
    ((validate_schedule db schedule_id).violations ++
     (validate_schedule db schedule_id).warnings ++
     (validate_schedule db schedule_id).info).Pairwise
        (fun a b => vkey a ≠ vkey b) := by
  constructor
  · rw [List.all_eq_true]
    intro v hv
    rcases mem_validate_schedule_cases hv with h | h | h | h | h | h <;>
      simp [h]
  · simp only [validate_schedule]
    split
    · simp
    · exact ((categorize_concat_perm _).pairwise_iff
        (fun h e => h e.symm)).mpr (pairwise_dedup [] _)

def scheduleC3 : Schedule := ⟨1, 1, 0, ScheduleStatus.draft, 1, none⟩

def shiftC3a : Shift :=
  ⟨some 1, 1, 1, 1, 480, 720, 0, ShiftStatus.scheduled, none, none, none, none⟩

def shiftC3b : Shift :=
  ⟨some 2, 1, 1, 1, 600, 840, 0, ShiftStatus.scheduled, none, none, none, none⟩

def dbC3 : DB := { schedules := [scheduleC3], shifts := [shiftC3a, shiftC3b] }

/-- C3 (counterexample): a schedule holding two overlapping same-employee
same-date shifts (8:00-12:00 and 10:00-14:00).  Per-shift validation of the
first shift reports a shift_overlap error, but `validate_schedule` reports no
finding at all and calls the schedule compliant: the shift_overlap check is
not among the checks it runs. -/
theorem validate_schedule_misses_overlap_cex :
    dbC3.shifts = [shiftC3a, shiftC3b] ∧
    shiftC3a.schedule_id = 1 ∧ shiftC3b.schedule_id = 1 ∧
    ((validate_shift dbC3 shiftC3a none).violations.any
      (fun v => decide (v.vtype = ViolationType.shift_overlap))) = true ∧
    (validate_schedule dbC3 1).is_compliant = true ∧
    ((validate_schedule dbC3 1).violations ++
     (validate_schedule dbC3 1).warnings ++
     (validate_schedule dbC3 1).info) = [] := by
  refine ⟨rfl, rfl, rfl, ?_, ?_, ?_⟩
  all_goals
    simp [validate_shift, validate_schedule, validate_daily_hours,
        validate_weekly_hours, validate_consecutive_days,
        validate_break_requirements, validate_time_off_conflicts,
        validate_availability, validate_shift_overlap, categorize,
        dedupViolations, groupByEmployee, shiftsJoinSchedule, vkey,
        cDurationHours, cTotalHours, Shift.durationHours, Shift.totalHours,
        weekday, dbC3, scheduleC3, shiftC3a, shiftC3b, settings.max_hours_per_week,
        settings.max_hours_per_day, settings.days_on_per_week,
        settings.break_minutes_8hr_shift, settings.break_minutes_9hr_shift]
  all_goals try norm_num
  all_goals simp [dedupViolations]

/-! ## C10: break auto-raising on the shift endpoints -/

/-- Observation: the route outcome is a blocking response (422 or 409) whose
findings include an insufficient_break finding. -/
def blockingBreakViolation : ShiftRouteResult → Bool
  | ShiftRouteResult.unprocessable r =>
    (r.violations ++ r.warnings ++ r.info).any
      (fun v => decide (v.vtype = ViolationType.insufficient_break))
  | ShiftRouteResult.conflict r =>
    (r.violations ++ r.warnings ++ r.info).any
      (fun v => decide (v.vtype = ViolationType.insufficient_break))
  | _ => false

/-- Observation: if the route persisted a shift, that shift satisfies the
break rule for its elapsed length. -/
def persistedBreakOk : ShiftRouteResult → Bool
  | ShiftRouteResult.ok _ s =>
    decide (get_required_break_minutes s.totalHours ≤ s.break_minutes)
  | _ => true

theorem autoAdjustBreak_ok (s : Shift) :
    get_required_break_minutes (autoAdjustBreak s).totalHours ≤
      (autoAdjustBreak s).break_minutes := by
  simp only [autoAdjustBreak]
  split
  · exact le_refl _
  · next h => exact le_of_not_lt h

theorem validate_break_eq_nil {s : Shift}
    (h : get_required_break_minutes (cTotalHours s) ≤ s.break_minutes) :
    validate_break_requirements s = [] := by
  simp only [get_required_break_minutes] at h
  simp only [validate_break_requirements]
  rw [if_neg (not_lt.mpr h)]

theorem no_break_blocking {db : DB} {s : Shift} {w : Option ℤ}
    (h : get_required_break_minutes (cTotalHours s) ≤ s.break_minutes) :
    ((validate_shift db s w).violations ++ (validate_shift db s w).warnings ++
      (validate_shift db s w).info).any
        (fun v => decide (v.vtype = ViolationType.insufficient_break)) = false := by
  rw [List.any_eq_false]
  intro v hv
  simp only [validate_shift] at hv
  have hm := mem_of_mem_categorize hv
  rw [validate_break_eq_nil h] at hm
  simp only [List.mem_append] at hm
  rcases hm with (((((hm | hm) | hm) | hm) | hm) | hm) | hm
  · simp [vtype_of_mem_daily hm]
  · simp [vtype_of_mem_weekly hm]
  · simp [vtype_of_mem_consecutive hm]
  · simp at hm
  · simp [vtype_of_mem_time_off hm]
  · simp [vtype_of_mem_availability hm]
  · simp [vtype_of_mem_overlap hm]

theorem create_break_facts (db : DB) (cd : ShiftCreate) (validate force : Bool) :
    blockingBreakViolation (create_shift db cd validate force) = false ∧
    persistedBreakOk (create_shift db cd validate force) = true := by
  simp only [create_shift]
  split
  · exact ⟨rfl, rfl⟩
  · split
    · split
      · exact ⟨no_break_blocking (autoAdjustBreak_ok _), rfl⟩
      · split
        · exact ⟨no_break_blocking (autoAdjustBreak_ok _), rfl⟩
        · exact ⟨rfl, decide_eq_true (autoAdjustBreak_ok _)⟩
    · exact ⟨rfl, decide_eq_true (autoAdjustBreak_ok _)⟩

theorem update_break_facts (db : DB) (sid : Nat) (ud : ShiftUpdate)
    (validate force : Bool)
    (hud : (ud.start_time.isSome || ud.end_time.isSome) = true) :
    blockingBreakViolation (update_shift db sid ud validate force) = false ∧
    persistedBreakOk (update_shift db sid ud validate force) = true := by
  simp only [update_shift, hud, if_true]
  split
  · exact ⟨rfl, rfl⟩
  · split
    · split
      · exact ⟨no_break_blocking (autoAdjustBreak_ok _), rfl⟩
      · split
        · exact ⟨no_break_blocking (autoAdjustBreak_ok _), rfl⟩
        · exact ⟨rfl, decide_eq_true (autoAdjustBreak_ok _)⟩
    · exact ⟨rfl, decide_eq_true (autoAdjustBreak_ok _)⟩

/-- C10 (amended): `create_shift` always raises `break_minutes` to the
required minimum before validating or persisting, and `update_shift` does so
exactly when `start_time` or `end_time` is part of the update payload.  In
those cases no blocking response ever carries an insufficient_break finding
and every persisted shift satisfies the break rule.  (An update touching only
`break_minutes` bypasses the adjustment: see the counterexample.) -/
theorem break_rule_on_create_and_timed_update (db : DB) (cd : ShiftCreate)
    (ud : ShiftUpdate) (sid : Nat) (validate force : Bool)
    (hud : (ud.start_time.isSome || ud.end_time.isSome) = true) :
    blockingBreakViolation (create_shift db cd validate force) = false ∧
    persistedBreakOk (create_shift db cd validate force) = true ∧
    blockingBreakViolation (update_shift db sid ud validate force) = false ∧
    persistedBreakOk (update_shift db sid ud validate force) = true := by
  obtain ⟨h1, h2⟩ := create_break_facts db cd validate force
  obtain ⟨h3, h4⟩ := update_break_facts db sid ud validate force hud
  exact ⟨h1, h2, h3, h4⟩

def udW : ShiftUpdate := { start_time := some 540 }

def cdW : ShiftCreate :=
  { employee_id := 1, date := 0, start_time := 480, end_time := 960,
    break_minutes := 0, schedule_id := 1 }

/-- Witness for the C10 theorem at a concrete input. -/
theorem break_rule_on_create_and_timed_update_witness :
    (udW.start_time.isSome || udW.end_time.isSome) = true ∧
    (blockingBreakViolation (create_shift {} cdW true false) = false ∧
     persistedBreakOk (create_shift {} cdW true false) = true ∧
     blockingBreakViolation (update_shift {} 1 udW true false) = false ∧
     persistedBreakOk (update_shift {} 1 udW true false) = true) :=
  ⟨rfl, break_rule_on_create_and_timed_update {} cdW udW 1 true false rfl⟩

def shiftC10 : Shift :=
  ⟨some 1, 1, 1, 1, 480, 960, 30, ShiftStatus.scheduled, none, none, none, none⟩

def dbC10 : DB :=
  { schedules := [⟨1, 1, 0, ScheduleStatus.draft, 1, none⟩],
    shifts := [shiftC10] }

def udC10 : ShiftUpdate := { break_minutes := some 0 }

/-- C10 (counterexample): patching only `break_minutes` (to 0, on a persisted
8-hour shift) skips the auto-adjustment; with validation on, the update is
blocked by an insufficient_break finding, and with validation off it persists
a shift that violates the break rule. -/
theorem update_break_only_bypasses_adjustment_cex :
    blockingBreakViolation (update_shift dbC10 1 udC10 true false) = true ∧
    persistedBreakOk (update_shift dbC10 1 udC10 false false) = false := by
  constructor <;>
    · simp [update_shift, udC10, dbC10, shiftC10, blockingBreakViolation,
        persistedBreakOk, validate_shift, validate_daily_hours,
        validate_weekly_hours, validate_consecutive_days,
        validate_break_requirements, validate_time_off_conflicts,
        validate_availability, validate_shift_overlap, categorize,
        shiftsJoinSchedule, cDurationHours, cTotalHours, Shift.durationHours,
        Shift.totalHours, weekday, get_required_break_minutes,
        settings.max_hours_per_week, settings.max_hours_per_day,
        settings.days_on_per_week, settings.break_minutes_8hr_shift,
        settings.break_minutes_9hr_shift]
      norm_num

/-! ## C6: called-out shifts and weekly-hours accounting -/

theorem map_comp_eq_of {α β : Type} (f : α → α) (g : α → β)
    (h : ∀ x, g (f x) = g x) (l : List α) : (l.map f).map g = l.map g := by
  induction l with
  | nil => rfl
  | cons a t ih => simp only [List.map_cons, h, ih]

/-- C6 (amended): a `called_out` shift stays assigned to its employee
(`mark_callout` changes no `employee_id`), but its working hours are excluded
from the weekly totals used by replacement search and assignment: removing a
called-out shift from the table leaves `get_employee_week_hours` unchanged,
because only SCHEDULED and COVERED shifts are counted. -/
theorem calledout_excluded_from_week_hours (db db2 : DB) (l1 l2 : List Shift)
    (s : Shift) (e : Nat) (w now : ℤ) (r : Option String) (sid : Nat)
    (hs : s.status = ShiftStatus.called_out)
    (hsplit : db.shifts = l1 ++ s :: l2)
    (hm : mark_callout db sid r now = some db2) :
    get_employee_week_hours db e w =
      get_employee_week_hours { db with shifts := l1 ++ l2 } e w ∧
    db2.shifts.map (fun t => t.employee_id) =
      db.shifts.map (fun t => t.employee_id) := by
  constructor
  · simp only [get_employee_week_hours, hsplit, List.filter_append,
      List.filter_cons]
    simp [hs]
  · simp only [mark_callout] at hm
    split at hm
    · exact absurd hm (by simp)
    · split at hm
      · have hdb2 := Option.some.inj hm
        subst hdb2
        exact map_comp_eq_of _ _ (fun x => by split <;> rfl) _
      · exact absurd hm (by simp)

def shiftC6 : Shift :=
  ⟨some 1, 1, 1, 0, 480, 960, 30, ShiftStatus.called_out, none, some 0,
    some 1, none⟩

def shiftC6b : Shift :=
  ⟨some 2, 1, 2, 2, 480, 960, 30, ShiftStatus.scheduled, none, none, none,
    none⟩

def dbC6 : DB := { shifts := [shiftC6, shiftC6b] }

def dbC6after : DB :=
  { shifts := [shiftC6,
      { shiftC6b with status := ShiftStatus.called_out,
                      callout_reason := none, callout_time := some 9,
                      original_employee_id := some 2 }] }

/-- Witness for the C6 theorem at a concrete input. -/
theorem calledout_excluded_from_week_hours_witness :
    shiftC6.status = ShiftStatus.called_out ∧
    dbC6.shifts = [] ++ shiftC6 :: [shiftC6b] ∧
    mark_callout dbC6 2 none 9 = some dbC6after ∧
    (get_employee_week_hours dbC6 1 0 =
       get_employee_week_hours { dbC6 with shifts := [] ++ [shiftC6b] } 1 0 ∧
     dbC6after.shifts.map (fun t => t.employee_id) =
       dbC6.shifts.map (fun t => t.employee_id)) :=
  ⟨rfl, rfl, rfl,
    calledout_excluded_from_week_hours dbC6 dbC6after [] [shiftC6b] shiftC6
      1 0 9 none 2 rfl rfl rfl⟩

/-- C6 (counterexample): an uncovered called-out shift of 7.5 working hours
inside the week contributes nothing to `get_employee_week_hours` for its
original employee, because the query filters to SCHEDULED and COVERED
statuses only. -/
theorem calledout_hours_not_counted_cex :
    dbC6.shifts.head? = some shiftC6 ∧
    shiftC6.status = ShiftStatus.called_out ∧
    shiftC6.employee_id = 1 ∧ shiftC6.date = 0 ∧
    Shift.durationHours shiftC6 = 15 / 2 ∧
    get_employee_week_hours dbC6 1 0 = 0 := by
  refine ⟨rfl, rfl, rfl, rfl, ?_, ?_⟩
  · norm_num [Shift.durationHours, shiftC6]
  · rfl

/-! ## C9: swap approval (app/api/routes/swaps.py `approve_shift_swap`)

Notification rows are not modelled (they live in a separate table and no
claim concerns them). -/

/-- routes/swaps.py `approve_shift_swap`: requires the swap to exist, be in
ACCEPTED status and carry a `requested_shift_id`; captures both employee ids,
writes each onto the other shift, and stamps the swap APPROVED with
`approved_by`/`approved_at`.  `none` models the 404/400 paths. -/
def approve_shift_swap (db : DB) (swap_id approver : Nat) (now : ℤ) :
    Option DB :=
  match db.swaps.find? (fun w => decide (w.id = swap_id)) with
  | none => none
  | some sw =>
    if sw.status = SwapStatus.accepted then
      match sw.requested_shift_id with
      | none => none
      | some rid =>
        match db.shifts.find?
            (fun s => decide (s.id = some sw.requester_shift_id)),
          db.shifts.find? (fun s => decide (s.id = some rid)) with
        | some s1, some s2 =>
          let e1 := s1.employee_id
          let e2 := s2.employee_id
          let shifts1 := db.shifts.map (fun t =>
            if decide (t.id = some sw.requester_shift_id) then
              { t with employee_id := e2 }
            else t)
          let shifts2 := shifts1.map (fun t =>
            if decide (t.id = some rid) then { t with employee_id := e1 }
            else t)
          some { db with
            shifts := shifts2,
            swaps := db.swaps.map (fun w =>
              if decide (w.id = swap_id) then
                { w with status := SwapStatus.approved,
                         approved_by := some approver,
                         approved_at := some now }
              else w) }
        | _, _ => none
    else none

/-- C9: approving an accepted swap with both shift references set mutates
exactly the two shifts' `employee_id` fields, exchanging their values; every
other field of both shifts, every other shift, and every other table are
untouched, and the swap row is stamped approved. -/
theorem approve_swap_exchanges_only_employee_ids (db db2 : DB)
    (swap_id approver : Nat) (now : ℤ) (sw : ShiftSwap) (rid : Nat)
    (s1 s2 : Shift)
    (hfind : db.swaps.find? (fun w => decide (w.id = swap_id)) = some sw)
    (hstatus : sw.status = SwapStatus.accepted)
    (hreq : sw.requested_shift_id = some rid)
    (hne : rid ≠ sw.requester_shift_id)
    (hs1 : db.shifts.find?
      (fun s => decide (s.id = some sw.requester_shift_id)) = some s1)
    (hs2 : db.shifts.find? (fun s => decide (s.id = some rid)) = some s2)
    (happr : approve_shift_swap db swap_id approver now = some db2) :
    db2.shifts = db.shifts.map (fun t =>
      if t.id = some sw.requester_shift_id then
        { t with employee_id := s2.employee_id }
      else if t.id = some rid then { t with employee_id := s1.employee_id }
      else t) ∧
    db2.swaps = db.swaps.map (fun w =>
      if w.id = swap_id then
        { w with status := SwapStatus.approved,
                 approved_by := some approver, approved_at := some now }
      else w) ∧
    db2.stores = db.stores ∧ db2.employees = db.employees ∧
    db2.schedules = db.schedules ∧
    db2.availabilities = db.availabilities ∧
    db2.time_off_requests = db.time_off_requests := by
  unfold approve_shift_swap at happr
  rw [hfind] at happr
  simp only [hstatus, hreq, hs1, hs2, if_true, reduceIte] at happr
  obtain rfl := (Option.some.inj happr).symm
  refine ⟨?_, ?_, rfl, rfl, rfl, rfl, rfl⟩
  · dsimp only
    rw [List.map_map]
    congr 1
    funext t
    simp only [Function.comp_apply]
    by_cases h1 : t.id = some sw.requester_shift_id
    · have h2 : ¬ t.id = some rid := by
        rw [h1]; intro hc
        exact hne (Option.some.inj hc.symm)
      simp [h1, h2, hne, Ne.symm hne]
    · by_cases h2 : t.id = some rid
      · simp [h1, h2, hne, Ne.symm hne]
      · simp [h1, h2]
  · dsimp only
    congr 1
    funext w
    by_cases h : w.id = swap_id <;> simp [h]

def swapC9 : ShiftSwap := ⟨1, 1, some 2, SwapStatus.accepted, none, none⟩

def shiftC9a : Shift :=
  ⟨some 1, 1, 1, 0, 480, 960, 30, ShiftStatus.scheduled, none, none, none,
    none⟩

def shiftC9b : Shift :=
  ⟨some 2, 1, 2, 2, 600, 1080, 30, ShiftStatus.scheduled, none, none, none,
    none⟩

def dbC9 : DB := { shifts := [shiftC9a, shiftC9b], swaps := [swapC9] }

def shiftC9a2 : Shift := { shiftC9a with employee_id := 2 }

def shiftC9b2 : Shift := { shiftC9b with employee_id := 1 }

def swapC9after : ShiftSwap :=
  { swapC9 with status := SwapStatus.approved, approved_by := some 9,
                approved_at := some 5 }

def dbC9after : DB :=
  { shifts := [shiftC9a2, shiftC9b2], swaps := [swapC9after] }

/-- Witness for the C9 theorem at a concrete input. -/
theorem approve_swap_exchanges_only_employee_ids_witness :
    dbC9.swaps.find? (fun w => decide (w.id = 1)) = some swapC9 ∧
    swapC9.status = SwapStatus.accepted ∧
    swapC9.requested_shift_id = some 2 ∧
    (2 : Nat) ≠ swapC9.requester_shift_id ∧
    approve_shift_swap dbC9 1 9 5 = some dbC9after ∧
    (dbC9after.shifts = dbC9.shifts.map (fun t =>
      if t.id = some swapC9.requester_shift_id then
        { t with employee_id := shiftC9b.employee_id }
      else if t.id = some 2 then { t with employee_id := shiftC9a.employee_id }
      else t) ∧
     dbC9after.swaps = dbC9.swaps.map (fun w =>
      if w.id = 1 then
        { w with status := SwapStatus.approved,
                 approved_by := some 9, approved_at := some 5 }
      else w) ∧
     dbC9after.stores = dbC9.stores ∧ dbC9after.employees = dbC9.employees ∧
     dbC9after.schedules = dbC9.schedules ∧
     dbC9after.availabilities = dbC9.availabilities ∧
     dbC9after.time_off_requests = dbC9.time_off_requests) :=
  ⟨rfl, rfl, rfl, by decide, rfl,
    approve_swap_exchanges_only_employee_ids dbC9 dbC9after 1 9 5 swapC9 2
      shiftC9a shiftC9b rfl rfl rfl (by decide) rfl rfl rfl⟩

/-! ## C1: schedule lifecycle (routes/schedules.py, services/optimizer.py
`apply_schedule`) -/

/-- A proposed shift dict as produced by the optimizer and consumed by
`apply_schedule` (the fields it reads). -/
structure ProposedShift where
  employee_id : Nat
  date : ℤ
  start_time : ℤ
  end_time : ℤ
  break_minutes : ℤ
  deriving DecidableEq

/-- Autoincrement for the schedules table. -/
def newScheduleId (db : DB) : Nat :=
  db.schedules.foldl (fun m sc => max m sc.id) 0 + 1

/-- routes/schedules.py `create_schedule`: rejects (400) when any schedule
for (store, week) exists, else inserts a draft. -/
def create_schedule (db : DB) (store_id : Nat) (week : ℤ) (user : Nat) :
    Option DB :=
  match db.schedules.find? (fun sc =>
      decide (sc.store_id = store_id) && decide (sc.week_start_date = week)) with
  | some _ => none
  | none =>
    some { db with schedules := db.schedules ++
      [⟨newScheduleId db, store_id, week, ScheduleStatus.draft, user, none⟩] }

/-- Materialize the proposed shifts under a schedule id. -/
def insertProposed (db : DB) (sid : Nat) (ps : List ProposedShift) : DB :=
  { db with shifts := db.shifts ++
      ((List.range ps.length).zip ps).map (fun pr =>
        ⟨some (newShiftId db + pr.1), sid, pr.2.employee_id, pr.2.date,
          pr.2.start_time, pr.2.end_time, pr.2.break_minutes,
          ShiftStatus.scheduled, none, none, none, none⟩) }

/-- optimizer.py `apply_schedule`: reuse the draft schedule for
(store, week) after clearing its shifts, or create a fresh draft (even when a
published schedule exists for the pair); then insert the proposed shifts. -/
def apply_schedule (db : DB) (store_id : Nat) (week : ℤ)
    (shifts : List ProposedShift) (created_by : Nat) : DB :=
  match db.schedules.find? (fun sc =>
      decide (sc.store_id = store_id) && decide (sc.week_start_date = week) &&
      decide (sc.status = ScheduleStatus.draft)) with
  | some schedule =>
    let db1 := { db with
      shifts := db.shifts.filter (fun s => !decide (s.schedule_id = schedule.id)) }
    insertProposed db1 schedule.id shifts
  | none =>
    let sid := newScheduleId db
    let db1 := { db with schedules := db.schedules ++
      [⟨sid, store_id, week, ScheduleStatus.draft, created_by, none⟩] }
    insertProposed db1 sid shifts

/-- routes/schedules.py `publish_schedule`: 404 when missing, 400 when the
target is already published or has no shifts, 422/409 from validation unless
disabled or forced; on success stamps PUBLISHED and `published_at`.
(Notification rows are not modelled.) -/
def publish_schedule (db : DB) (schedule_id : Nat) (validate force : Bool)
    (now : ℤ) : Option DB :=
  match db.schedules.find? (fun sc => decide (sc.id = schedule_id)) with
  | none => none
  | some schedule =>
    if schedule.status = ScheduleStatus.published then none
    else
      let shift_count := (db.shifts.filter
        (fun s => decide (s.schedule_id = schedule_id))).length
      if shift_count = 0 then none
      else
        let doPub : Option DB :=
          some { db with schedules := db.schedules.map (fun sc =>
            if decide (sc.id = schedule_id) then
              { sc with status := ScheduleStatus.published,
                        published_at := some now }
            else sc) }
        if validate then
          let r := validate_schedule db schedule_id
          if !r.is_compliant then none
          else if !r.warnings.isEmpty && !force then none
          else doPub
        else doPub

/-- routes/schedules.py `unpublish_schedule`. -/
def unpublish_schedule (db : DB) (schedule_id : Nat) : Option DB :=
  match db.schedules.find? (fun sc => decide (sc.id = schedule_id)) with
  | none => none
  | some schedule =>
    if schedule.status = ScheduleStatus.published then
      some { db with schedules := db.schedules.map (fun sc =>
        if decide (sc.id = schedule_id) then
          { sc with status := ScheduleStatus.draft, published_at := none }
        else sc) }
    else none

/-- routes/schedules.py `delete_schedule`: draft/archived only; the ORM
cascade also deletes the schedule's shifts. -/
def delete_schedule (db : DB) (schedule_id : Nat) : Option DB :=
  match db.schedules.find? (fun sc => decide (sc.id = schedule_id)) with
  | none => none
  | some schedule =>
    if schedule.status = ScheduleStatus.published then none
    else
      some { db with
        schedules := db.schedules.filter
          (fun sc => !decide (sc.id = schedule_id)),
        shifts := db.shifts.filter
          (fun s => !decide (s.schedule_id = schedule_id)) }

/-- Persisted states reachable through the schedule lifecycle operations,
starting from any state with empty schedules/shifts tables. -/
inductive ReachableSched : DB → Prop
  | init (db : DB) (h1 : db.schedules = []) (h2 : db.shifts = []) :
      ReachableSched db
  | create {db db2 : DB} {store : Nat} {week : ℤ} {user : Nat}
      (h : ReachableSched db)
      (hc : create_schedule db store week user = some db2) : ReachableSched db2
  | addShift {db db2 : DB} {data : ShiftCreate} {v f : Bool} {s : Shift}
      (h : ReachableSched db)
      (hc : create_shift db data v f = ShiftRouteResult.ok db2 s) :
      ReachableSched db2
  | applyOp {db : DB} {store : Nat} {week : ℤ} {ps : List ProposedShift}
      {user : Nat} (h : ReachableSched db) :
      ReachableSched (apply_schedule db store week ps user)
  | publishOp {db db2 : DB} {sid : Nat} {v f : Bool} {now : ℤ}
      (h : ReachableSched db)
      (hp : publish_schedule db sid v f now = some db2) : ReachableSched db2
  | unpublishOp {db db2 : DB} {sid : Nat} (h : ReachableSched db)
      (hp : unpublish_schedule db sid = some db2) : ReachableSched db2
  | deleteOp {db db2 : DB} {sid : Nat} (h : ReachableSched db)
      (hp : delete_schedule db sid = some db2) : ReachableSched db2

/-- Same lifecycle without the optimizer's `apply_schedule`. -/
inductive ReachableCore : DB → Prop
  | init (db : DB) (h1 : db.schedules = []) (h2 : db.shifts = []) :
      ReachableCore db
  | create {db db2 : DB} {store : Nat} {week : ℤ} {user : Nat}
      (h : ReachableCore db)
      (hc : create_schedule db store week user = some db2) : ReachableCore db2
  | addShift {db db2 : DB} {data : ShiftCreate} {v f : Bool} {s : Shift}
      (h : ReachableCore db)
      (hc : create_shift db data v f = ShiftRouteResult.ok db2 s) :
      ReachableCore db2
  | publishOp {db db2 : DB} {sid : Nat} {v f : Bool} {now : ℤ}
      (h : ReachableCore db)
      (hp : publish_schedule db sid v f now = some db2) : ReachableCore db2
  | unpublishOp {db db2 : DB} {sid : Nat} (h : ReachableCore db)
      (hp : unpublish_schedule db sid = some db2) : ReachableCore db2
  | deleteOp {db db2 : DB} {sid : Nat} (h : ReachableCore db)
      (hp : delete_schedule db sid = some db2) : ReachableCore db2

/-- Number of PUBLISHED schedules persisted for a (store, week) pair. -/
def publishedCount (db : DB) (store : Nat) (week : ℤ) : Nat :=
  (db.schedules.filter (fun sc =>
    decide (sc.store_id = store) && decide (sc.week_start_date = week) &&
    decide (sc.status = ScheduleStatus.published))).length

def psC1 : ProposedShift := ⟨1, 0, 480, 960, 30⟩

def dbC1a : DB := apply_schedule {} 1 0 [psC1] 1

def dbC1b : DB := (publish_schedule dbC1a 1 false false 0).getD {}

def dbC1c : DB := apply_schedule dbC1b 1 0 [psC1] 1

def dbC1d : DB := (publish_schedule dbC1c 2 false false 0).getD {}

/-- C1 (counterexample): publish checks only that the target schedule itself
is not already published; `apply_schedule` creates a fresh draft for a
(store, week) pair whose schedule is already published, and publishing that
draft yields a reachable persisted state with TWO published schedules for the
same pair. -/
theorem two_published_schedules_same_pair_cex :
    publish_schedule dbC1a 1 false false 0 = some dbC1b ∧
    publish_schedule dbC1c 2 false false 0 = some dbC1d ∧
    ReachableSched dbC1d ∧
    publishedCount dbC1d 1 0 = 2 := by
  refine ⟨rfl, rfl, ?_, rfl⟩
  have h1 : ReachableSched dbC1a :=
    @ReachableSched.applyOp {} 1 0 [psC1] 1 (ReachableSched.init {} rfl rfl)
  have h2 : ReachableSched dbC1b :=
    @ReachableSched.publishOp dbC1a dbC1b 1 false false 0 h1 rfl
  have h3 : ReachableSched dbC1c :=
    @ReachableSched.applyOp dbC1b 1 0 [psC1] 1 h2
  exact @ReachableSched.publishOp dbC1c dbC1d 2 false false 0 h3 rfl

theorem create_shift_schedules_eq {db db2 : DB} {data : ShiftCreate}
    {v f : Bool} {s : Shift}
    (hc : create_shift db data v f = ShiftRouteResult.ok db2 s) :
    db2.schedules = db.schedules := by
  simp only [create_shift] at hc
  split at hc
  · exact absurd hc (by simp)
  · split at hc
    · split at hc
      · exact absurd hc (by simp)
      · split at hc
        · exact absurd hc (by simp)
        · cases hc; rfl
    · cases hc; rfl

theorem pairwise_map_preserving (f : Schedule → Schedule)
    (hf : ∀ x, (f x).store_id = x.store_id ∧
      (f x).week_start_date = x.week_start_date)
    {l : List Schedule}
    (ih : l.Pairwise (fun a b =>
      ¬(a.store_id = b.store_id ∧ a.week_start_date = b.week_start_date))) :
    (l.map f).Pairwise (fun a b =>
      ¬(a.store_id = b.store_id ∧ a.week_start_date = b.week_start_date)) := by
  refine List.Pairwise.map _ ?_ ih
  intro a b hab hcon
  exact hab ⟨((hf a).1).symm.trans (hcon.1.trans (hf b).1),
    ((hf a).2).symm.trans (hcon.2.trans (hf b).2)⟩

/-- Schedules of a state reachable without `apply_schedule` are pairwise
distinct on (store, week_start). -/
theorem core_pairwise {db : DB} (h : ReachableCore db) :
    db.schedules.Pairwise (fun a b =>
      ¬(a.store_id = b.store_id ∧ a.week_start_date = b.week_start_date)) := by
  induction h with
  | init db h1 h2 => rw [h1]; exact List.Pairwise.nil
  | create h hc ih =>
    simp only [create_schedule] at hc
    split at hc
    · exact absurd hc (by simp)
    · next hnone =>
      cases hc
      rw [List.pairwise_append]
      refine ⟨ih, List.pairwise_singleton _ _, ?_⟩
      intro a ha b hb
      simp only [List.mem_singleton] at hb
      subst hb
      have hfa := List.find?_eq_none.mp hnone a ha
      intro hcontra
      exact hfa (by simp [hcontra.1, hcontra.2])
  | addShift h hc ih => rw [create_shift_schedules_eq hc]; exact ih
  | publishOp h hp ih =>
    simp only [publish_schedule] at hp
    split at hp
    · exact absurd hp (by simp)
    · split at hp
      · exact absurd hp (by simp)
      · split at hp
        · exact absurd hp (by simp)
        · split at hp
          · split at hp
            · exact absurd hp (by simp)
            · split at hp
              · exact absurd hp (by simp)
              · cases hp
                exact pairwise_map_preserving _
                  (fun x => by split <;> exact ⟨rfl, rfl⟩) ih
          · cases hp
            exact pairwise_map_preserving _
              (fun x => by split <;> exact ⟨rfl, rfl⟩) ih
  | unpublishOp h hp ih =>
    simp only [unpublish_schedule] at hp
    split at hp
    · exact absurd hp (by simp)
    · split at hp
      · cases hp
        exact pairwise_map_preserving _
          (fun x => by split <;> exact ⟨rfl, rfl⟩) ih
      · exact absurd hp (by simp)
  | deleteOp h hp ih =>
    simp only [delete_schedule] at hp
    split at hp
    · exact absurd hp (by simp)
    · split at hp
      · exact absurd hp (by simp)
      · cases hp
        exact ih.sublist (List.filter_sublist _)

theorem length_filter_le_one_of_pairwise {α : Type} (P : α → α → Prop)
    (p : α → Bool) (l : List α) (hpw : l.Pairwise P)
    (hcon : ∀ a b, p a = true → p b = true → P a b → False) :
    (l.filter p).length ≤ 1 := by
  have hsub : (l.filter p).Pairwise P := hpw.sublist (List.filter_sublist _)
  have hall : ∀ a ∈ l.filter p, p a = true :=
    fun a ha => (List.mem_filter.mp ha).2
  revert hsub hall
  cases hfil : l.filter p with
  | nil => intro _ _; simp
  | cons x t =>
    cases t with
    | nil => intro _ _; simp
    | cons y t2 =>
      intro hsub hall
      exfalso
      have hrel := (List.pairwise_cons.mp hsub).1 y (by simp)
      exact hcon x y (hall x (by simp)) (hall y (by simp)) hrel

theorem publishedCount_le_one_of_pairwise {db : DB} {store : Nat} {week : ℤ}
    (hpw : db.schedules.Pairwise (fun a b =>
      ¬(a.store_id = b.store_id ∧ a.week_start_date = b.week_start_date))) :
    publishedCount db store week ≤ 1 := by
  unfold publishedCount
  refine length_filter_le_one_of_pairwise _ _ _ hpw ?_
  intro a b hpa hpb hP
  simp only [Bool.and_eq_true, decide_eq_true_eq] at hpa hpb
  exact hP ⟨hpa.1.1.trans hpb.1.1.symm, hpa.1.2.trans hpb.1.2.symm⟩

/-- C1 (amended): the publish pre-check rejects only a target schedule that
is itself already published; across states reachable without the
optimizer apply step, schedules are unique per (store, week_start), so at
most one published schedule per pair exists there.  `apply_schedule` breaks
the global invariant (see the counterexample). -/
theorem publish_precheck_and_pair_uniqueness (db : DB) (store sid : Nat)
    (week : ℤ) (v f : Bool) (now : ℤ) (sc : Schedule)
    (h : ReachableCore db)
    (hfind : db.schedules.find? (fun c => decide (c.id = sid)) = some sc)
    (hpub : sc.status = ScheduleStatus.published) :
    db.schedules.Pairwise (fun a b =>
      ¬(a.store_id = b.store_id ∧ a.week_start_date = b.week_start_date)) ∧
    publishedCount db store week ≤ 1 ∧
    publish_schedule db sid v f now = none := by
  refine ⟨core_pairwise h, publishedCount_le_one_of_pairwise (core_pairwise h), ?_⟩
  simp [publish_schedule, hfind, hpub]

def scW1 : Schedule := ⟨1, 1, 0, ScheduleStatus.draft, 7, none⟩

def dbW1 : DB := { schedules := [scW1] }

def shiftDataW : ShiftCreate := ⟨1, 0, 480, 960, 30, 1⟩

def sW2 : Shift :=
  ⟨some 1, 1, 1, 0, 480, 960, 30, ShiftStatus.scheduled, none, none, none,
    none⟩

def dbW2 : DB := { schedules := [scW1], shifts := [sW2] }

def scW3 : Schedule := ⟨1, 1, 0, ScheduleStatus.published, 7, some 0⟩

def dbW3 : DB := { schedules := [scW3], shifts := [sW2] }

/-- Witness for the C1 theorem at a concrete input. -/
theorem publish_precheck_and_pair_uniqueness_witness :
    ReachableCore dbW3 ∧
    dbW3.schedules.find? (fun c => decide (c.id = 1)) = some scW3 ∧
    scW3.status = ScheduleStatus.published ∧
    (dbW3.schedules.Pairwise (fun a b =>
      ¬(a.store_id = b.store_id ∧ a.week_start_date = b.week_start_date)) ∧
     publishedCount dbW3 1 0 ≤ 1 ∧
     publish_schedule dbW3 1 true false 9 = none) := by
  have hcs : create_shift dbW1 shiftDataW false false =
      ShiftRouteResult.ok dbW2 sW2 := by
    simp [create_shift, autoAdjustBreak, get_required_break_minutes,
      newShiftId, dbW1, dbW2, scW1, shiftDataW, sW2,
      settings.break_minutes_8hr_shift, settings.break_minutes_9hr_shift]
    norm_num
  have hreach : ReachableCore dbW3 := by
    have hr1 : ReachableCore dbW1 :=
      @ReachableCore.create {} dbW1 1 0 7 (ReachableCore.init {} rfl rfl) rfl
    have hr2 : ReachableCore dbW2 :=
      @ReachableCore.addShift dbW1 dbW2 shiftDataW false false sW2 hr1 hcs
    exact @ReachableCore.publishOp dbW2 dbW3 1 false false 0 hr2 rfl
  exact ⟨hreach, rfl, rfl,
    publish_precheck_and_pair_uniqueness dbW3 1 1 0 true false 9 scW3 hreach
      rfl rfl⟩

/-! ## Demand Forecaster (app/services/forecaster.py)

Floats are modelled as exact reals.  Python's stable `sorted`/`order_by` is
modelled by a stable insertion sort.  `generated_at` timestamps are omitted.
The service reads the ambient clock (`date.today()`) for its lookback
cutoff; the embedding threads it as an explicit `today` argument. -/

def insertSorted {α : Type} (le : α → α → Bool) (x : α) : List α → List α
  | [] => [x]
  | y :: t => if le x y then x :: y :: t else y :: insertSorted le x t

/-- Stable sort (equal elements keep their original order), as Python's
`sorted` and SQL `ORDER BY` guarantee. -/
def stableSortBy {α : Type} (le : α → α → Bool) : List α → List α
  | [] => []
  | x :: t => insertSorted le x (stableSortBy le t)

theorem mem_insertSorted {α : Type} (le : α → α → Bool) (x a : α)
    (l : List α) : a ∈ insertSorted le x l ↔ a = x ∨ a ∈ l := by
  induction l with
  | nil => simp [insertSorted]
  | cons y t ih =>
    simp only [insertSorted]
    split
    · simp
    · simp [ih]
      tauto

theorem mem_stableSortBy {α : Type} (le : α → α → Bool) (a : α) (l : List α) :
    a ∈ stableSortBy le l ↔ a ∈ l := by
  induction l with
  | nil => simp [stableSortBy]
  | cons x t ih => simp [stableSortBy, mem_insertSorted, ih]

theorem length_insertSorted {α : Type} (le : α → α → Bool) (x : α)
    (l : List α) : (insertSorted le x l).length = l.length + 1 := by
  induction l with
  | nil => simp [insertSorted]
  | cons y t ih =>
    simp only [insertSorted]
    split <;> simp [ih]

theorem length_stableSortBy {α : Type} (le : α → α → Bool) (l : List α) :
    (stableSortBy le l).length = l.length := by
  induction l with
  | nil => simp [stableSortBy]
  | cons x t ih => simp [stableSortBy, length_insertSorted, ih]

inductive ForecastMethod
  | simple_average | weighted_average | exponential_smoothing | ensemble
  deriving DecidableEq

def ForecastMethod.value : ForecastMethod → String
  | ForecastMethod.simple_average => "simple_average"
  | ForecastMethod.weighted_average => "weighted_average"
  | ForecastMethod.exponential_smoothing => "exponential_smoothing"
  | ForecastMethod.ensemble => "ensemble"

structure HourlyForecast where
  date : ℤ
  hour : ℤ
  predicted_orders : ℝ
  confidence_low : ℝ
  confidence_high : ℝ
  method : String
  data_points_used : ℕ

structure DailyForecast where
  date : ℤ
  hourly_forecasts : List HourlyForecast
  total_predicted_orders : ℝ
  peak_hour : ℤ
  peak_orders : ℝ

structure WeeklyForecast where
  store_id : Nat
  week_start : ℤ
  daily_forecasts : List DailyForecast
  total_predicted_orders : ℝ
  method : String
  warnings : List String

/-- Python round(x, 2).  (Python rounds half to even; this rounds half away
from zero at exact half-cent ties, which no claim touches.) -/
noncomputable def round2 (x : ℝ) : ℝ := ((round (x * 100) : ℤ) : ℝ) / 100

/-- forecaster.py `_get_historical_data`, read at one bucket key: the rows of
the store within the 8-week lookback, in date order, whose
(day_of_week, hour) matches, as (date, order_count) pairs. -/
def historicalBucket (db : DB) (today : ℤ) (store_id : Nat) (dow hour : ℤ) :
    List (ℤ × ℚ) :=
  let cutoff_date := today - 7 * 8
  let rows := stableSortBy (fun a b => decide (a.date ≤ b.date))
    (db.historical_orders.filter (fun r =>
      decide (r.store_id = store_id) && decide (cutoff_date ≤ r.date)))
  (rows.filter (fun r =>
    decide (r.day_of_week.getD (weekday r.date) = dow) &&
    decide (r.hour = hour))).map (fun r => (r.date, r.order_count))

/-- forecaster.py `_simple_average`. -/
noncomputable def simple_average (data_points : List (ℤ × ℚ)) : ℝ × ℝ × ℝ :=
  if data_points.isEmpty then (0, 0, 0)
  else
    let values : List ℝ := data_points.map (fun d => ((d.2 : ℚ) : ℝ))
    let n := values.length
    let mean := values.sum / n
    let margin :=
      if 1 < n then
        let variance := (values.map (fun v => (v - mean) ^ 2)).sum / ((n : ℝ) - 1)
        1.96 * Real.sqrt variance / Real.sqrt n
      else mean * 0.3
    (mean, max 0 (mean - margin), mean + margin)

/-- forecaster.py `_weighted_average` (weight decay 0.85 per week, via a real
power of the fractional age in weeks). -/
noncomputable def weighted_average (data_points : List (ℤ × ℚ))
    (reference_date : ℤ) : ℝ × ℝ × ℝ :=
  if data_points.isEmpty then (0, 0, 0)
  else
    let sorted_points := stableSortBy (fun a b => decide (b.1 ≤ a.1)) data_points
    let weighted_values : List (ℝ × ℝ) := sorted_points.map (fun d =>
      (((d.2 : ℚ) : ℝ),
        (0.85 : ℝ) ^ ((((reference_date - d.1 : ℤ) : ℝ)) / 7)))
    let weighted_sum := (weighted_values.map (fun p => p.1 * p.2)).sum
    let weight_total := (weighted_values.map (fun p => p.2)).sum
    if weight_total = 0 then (0, 0, 0)
    else
      let mean := weighted_sum / weight_total
      let margin :=
        if 1 < weighted_values.length then
          let variance :=
            (weighted_values.map (fun p => p.2 * (p.1 - mean) ^ 2)).sum /
              weight_total
          1.96 * Real.sqrt variance
        else mean * 0.3
      (mean, max 0 (mean - margin), mean + margin)

/-- forecaster.py `_exponential_smoothing` (alpha 0.3; margin from the MAE of
one-step residuals). -/
noncomputable def exponential_smoothing (data_points : List (ℤ × ℚ)) :
    ℝ × ℝ × ℝ :=
  if data_points.isEmpty then (0, 0, 0)
  else
    let sorted_points := stableSortBy (fun a b => decide (a.1 ≤ b.1)) data_points
    let values : List ℝ := sorted_points.map (fun d => ((d.2 : ℚ) : ℝ))
    match values with
    | [] => (0, 0, 0)
    | v0 :: rest =>
      let level := rest.foldl (fun l v => 0.3 * v + (1 - 0.3) * l) v0
      let errors := (rest.foldl
        (fun (p : ℝ × List ℝ) v =>
          (0.3 * v + (1 - 0.3) * p.1, p.2 ++ [|v - p.1|])) (v0, [])).2
      let margin :=
        if errors.isEmpty then level * 0.3
        else 1.96 * (errors.sum / errors.length)
      (level, max 0 (level - margin), level + margin)

/-- forecaster.py `_ensemble_forecast`: 0.25/0.45/0.30 blend with the widest
confidence bounds of the three methods. -/
noncomputable def ensemble_forecast (data_points : List (ℤ × ℚ))
    (reference_date : ℤ) : ℝ × ℝ × ℝ :=
  let simple := simple_average data_points
  let weighted := weighted_average data_points reference_date
  let exp_smooth := exponential_smoothing data_points
  (0.25 * simple.1 + 0.45 * weighted.1 + 0.30 * exp_smooth.1,
   min simple.2.1 (min weighted.2.1 exp_smooth.2.1),
   max simple.2.2 (max weighted.2.2 exp_smooth.2.2))

/-- forecaster.py `forecast_hour`. -/
noncomputable def forecast_hour (db : DB) (today : ℤ) (store_id : Nat)
    (target_date hour : ℤ) (method : ForecastMethod) : HourlyForecast :=
  let data_points := historicalBucket db today store_id (weekday target_date) hour
  let r := match method with
    | ForecastMethod.simple_average => simple_average data_points
    | ForecastMethod.weighted_average => weighted_average data_points target_date
    | ForecastMethod.exponential_smoothing => exponential_smoothing data_points
    | ForecastMethod.ensemble => ensemble_forecast data_points target_date
  ⟨target_date, hour, round2 r.1, round2 r.2.1, round2 r.2.2, method.value,
    data_points.length⟩

/-- First maximal element by predicted volume (Python `max` keeps the first
of equal maxima). -/
noncomputable def firstMaxBy : List HourlyForecast → Option HourlyForecast
  | [] => none
  | h0 :: rest => some (rest.foldl
      (fun best h =>
        if best.predicted_orders < h.predicted_orders then h else best) h0)

/-- forecaster.py `forecast_day`, with the store row already loaded. -/
noncomputable def forecastDayWith (db : DB) (today : ℤ) (store : Store)
    (store_id : Nat) (target_date : ℤ) (method : ForecastMethod) :
    DailyForecast :=
  let start_hour := store.operating_start.getD 8
  let end_hour := store.operating_end.getD 22
  let hourly_forecasts := (List.range (end_hour - start_hour).toNat).map
    (fun (i : ℕ) => forecast_hour db today store_id target_date
      (start_hour + (i : ℤ)) method)
  let total_orders := (hourly_forecasts.map
    (fun h => h.predicted_orders)).sum
  let peak_forecast := firstMaxBy hourly_forecasts
  ⟨target_date, hourly_forecasts, round2 total_orders,
    (peak_forecast.map (fun h => h.hour)).getD 12,
    (peak_forecast.map (fun h => h.predicted_orders)).getD 0⟩

/-- forecaster.py `forecast_day` (ValueError on a missing store is `none`). -/
noncomputable def forecast_day (db : DB) (today : ℤ) (store_id : Nat)
    (target_date : ℤ) (method : ForecastMethod) : Option DailyForecast :=
  (db.stores.find? (fun st => decide (st.id = store_id))).map
    (fun store => forecastDayWith db today store store_id target_date method)

/-- Python `strftime('%A')` for our Monday-zero weekday. -/
def dayName (dow : ℤ) : String :=
  if dow = 0 then "Monday" else if dow = 1 then "Tuesday"
  else if dow = 2 then "Wednesday" else if dow = 3 then "Thursday"
  else if dow = 4 then "Friday" else if dow = 5 then "Saturday"
  else "Sunday"

/-- forecaster.py `forecast_week`: rejects non-Mondays, warns when the store
has no rows inside the lookback, forecasts 7 days with the requested method,
and appends per-day low-data warnings. -/
noncomputable def forecast_week (db : DB) (today : ℤ) (store_id : Nat)
    (week_start : ℤ) (method : ForecastMethod) : Option WeeklyForecast :=
  if weekday week_start ≠ 0 then none
  else
    match db.stores.find? (fun st => decide (st.id = store_id)) with
    | none => none
    | some store =>
      let hasData := !(db.historical_orders.filter (fun r =>
        decide (r.store_id = store_id) &&
        decide (today - 7 * 8 ≤ r.date))).isEmpty
      let warnings0 := if hasData then []
        else ["No historical data available - using default estimates"]
      let days := (List.range 7).map (fun (i : ℕ) =>
        forecastDayWith db today store store_id (week_start + (i : ℤ)) method)
      let warningsDays := days.foldl (fun acc d =>
        let low := (d.hourly_forecasts.filter
          (fun h => decide (h.data_points_used < 3))).length
        if 0 < low then
          acc ++ [dayName (weekday d.date) ++ ": " ++ toString low ++
            " hours with limited data"]
        else acc) []
      some ⟨store_id, week_start, days,
        round2 ((days.map (fun d => d.total_predicted_orders)).sum),
        method.value, warnings0 ++ warningsDays⟩

/-- forecaster.py `generate_default_forecast`: fixed hourly share pattern,
day-of-week multiplier, base of 100 daily orders, CI of plus/minus 30
percent; every hourly forecast is tagged default_pattern with zero data
points.  (`none` also covers the degenerate empty operating window, where
Python's `max()` raises.) -/
noncomputable def generate_default_forecast (db : DB) (store_id : Nat)
    (week_start : ℤ) : Option WeeklyForecast :=
  match db.stores.find? (fun st => decide (st.id = store_id)) with
  | none => none
  | some store =>
    let start_hour := store.operating_start.getD 8
    let end_hour := store.operating_end.getD 22
    if end_hour ≤ start_hour then none
    else
      let hourly_pattern : ℤ → ℝ := fun h =>
        if h = 8 then 0.04 else if h = 9 then 0.06 else if h = 10 then 0.08
        else if h = 11 then 0.10 else if h = 12 then 0.12
        else if h = 13 then 0.10 else if h = 14 then 0.08
        else if h = 15 then 0.08 else if h = 16 then 0.09
        else if h = 17 then 0.10 else if h = 18 then 0.08
        else if h = 19 then 0.05 else if h = 20 then 0.02
        else if h = 21 then 0.00 else 0.05
      let daily_pattern : ℤ → ℝ := fun d =>
        if d = 0 then 0.9 else if d = 1 then 0.95 else if d = 2 then 1.0
        else if d = 3 then 1.0 else if d = 4 then 1.1 else if d = 5 then 1.2
        else if d = 6 then 0.85 else 1.0
      let base_daily_orders : ℝ := 100
      let days := (List.range 7).map (fun (off : ℕ) =>
        let target_date := week_start + (off : ℤ)
        let daily_total := base_daily_orders * daily_pattern (weekday target_date)
        let hourly_forecasts := (List.range (end_hour - start_hour).toNat).map
          (fun (i : ℕ) =>
            let hour := start_hour + (i : ℤ)
            let predicted := daily_total * hourly_pattern hour
            (⟨target_date, hour, round2 predicted, round2 (predicted * 0.7),
              round2 (predicted * 1.3), "default_pattern", 0⟩ : HourlyForecast))
        let actual_total := (hourly_forecasts.map
          (fun h => h.predicted_orders)).sum
        let peak := (firstMaxBy hourly_forecasts).getD
          ⟨target_date, 12, 0, 0, 0, "default_pattern", 0⟩
        (⟨target_date, hourly_forecasts, round2 actual_total, peak.hour,
          peak.predicted_orders⟩ : DailyForecast))
      some ⟨store_id, week_start, days,
        round2 ((days.map (fun d => d.total_predicted_orders)).sum),
        "default_pattern",
        ["Using default pattern - no historical data available"]⟩

/-- routes/forecasts.py `generate_forecast`: validates the store and Monday,
then dispatches on whether the store has ANY historical rows: zero rows go
to `generate_default_forecast`, otherwise `forecast_week` runs with the
requested method.  (The optional save-to-db side effect is not modelled.) -/
noncomputable def generate_forecast_route (db : DB) (today : ℤ)
    (store_id : Nat) (week_start : ℤ) (method : ForecastMethod) :
    Option WeeklyForecast :=
  match db.stores.find? (fun st => decide (st.id = store_id)) with
  | none => none
  | some _ =>
    if weekday week_start ≠ 0 then none
    else if (db.historical_orders.filter (fun r =>
        decide (r.store_id = store_id))).length = 0 then
      generate_default_forecast db store_id week_start
    else forecast_week db today store_id week_start method

/-! ## C8: forecast accuracy (forecaster.py `get_forecast_accuracy`) -/

/-- Python round(q, 2) over the exact rational model. -/
def roundQ2 (q : ℚ) : ℚ := ((round (q * 100) : ℤ) : ℚ) / 100

structure AccuracyResult where
  data_points : ℕ
  mape : Option ℚ
  mae : Option ℚ
  bias : Option ℚ
  accuracy_rating : Option String
  deriving DecidableEq

/-- forecaster.py `_rate_accuracy`. -/
def rate_accuracy (mape : ℚ) : String :=
  if mape < 10 then "excellent"
  else if mape < 20 then "good"
  else if mape < 30 then "fair"
  else "poor"

/-- forecaster.py `get_forecast_accuracy`.  The guards
`round(mape, 2) if mape else None` and
`self._rate_accuracy(mape) if mape else "insufficient_data"` use Python
truthiness, so a present MAPE of exactly 0.0 takes the falsy branch; the
embedding mirrors that with the `m = 0` tests. -/
def get_forecast_accuracy (db : DB) (store_id : Nat)
    (start_date end_date : ℤ) : AccuracyResult :=
  let forecasts := db.order_forecasts.filter (fun f =>
    decide (f.store_id = store_id) && decide (start_date ≤ f.date) &&
    decide (f.date ≤ end_date) && f.actual_orders.isSome)
  if forecasts.isEmpty then ⟨0, none, none, none, none⟩
  else
    let errors := forecasts.map (fun f =>
      f.actual_orders.getD 0 - f.predicted_orders)
    let absolute_errors := errors.map (fun e => |e|)
    let percentage_errors := (forecasts.filter (fun f =>
      decide (0 < f.actual_orders.getD 0))).map (fun f =>
        |f.actual_orders.getD 0 - f.predicted_orders| /
          f.actual_orders.getD 0 * 100)
    let mae := absolute_errors.sum / absolute_errors.length
    let mape : Option ℚ :=
      if percentage_errors.isEmpty then none
      else some (percentage_errors.sum / percentage_errors.length)
    let bias := errors.sum / errors.length
    ⟨forecasts.length,
     (match mape with
      | some m => if m = 0 then none else some (roundQ2 m)
      | none => none),
     some (roundQ2 mae),
     some (roundQ2 bias),
     some (match mape with
      | some m => if m = 0 then "insufficient_data" else rate_accuracy m
      | none => "insufficient_data")⟩

def fcC8 : OrderForecast := ⟨1, 0, 8, 10, some 10⟩

def dbC8 : DB := { order_forecasts := [fcC8] }

/-- C8 (code bug): one forecast row with actual = predicted = 10 gives a
MAPE of exactly 0, which the rating thresholds (`rate_accuracy`) classify
"excellent"; but the caller guards both the reported MAPE and the rating
with Python truthiness (`if mape`), so the perfect forecast is reported as
mape = None with accuracy_rating "insufficient_data" despite one data
point. -/
theorem accuracy_mape_zero_bug :
    get_forecast_accuracy dbC8 1 0 0 =
      ⟨1, none, some 0, some 0, some "insufficient_data"⟩ ∧
    rate_accuracy 0 = "excellent" := by
  constructor
  · simp [get_forecast_accuracy, roundQ2, dbC8, fcC8, round_eq]
    norm_num
  · norm_num [rate_accuracy]

/-! ## C4: Labor-Standards Bridge (app/services/labor_standards.py) -/

/-- labor_standards.py `get_labor_standard`: returns the store's standard,
CREATING and committing a default one (productivity 10, shift bounds 4/8)
when none is configured.  Returns the (possibly grown) session alongside. -/
def get_labor_standard (db : DB) (store_id : Nat) : LaborStandard × DB :=
  match db.labor_standards.find? (fun ls => decide (ls.store_id = store_id)) with
  | some standard => (standard, db)
  | none =>
    let standard : LaborStandard :=
      ⟨store_id, settings.default_orders_per_picker_hour,
        settings.default_min_shift_hours, settings.default_max_shift_hours⟩
    (standard, { db with labor_standards := db.labor_standards ++ [standard] })

/-- labor_standards.py `calculate_required_hours`. -/
noncomputable def calculate_required_hours (predicted_orders : ℝ)
    (orders_per_picker_hour : ℝ) : ℝ :=
  if orders_per_picker_hour ≤ 0 then 0
  else predicted_orders / orders_per_picker_hour

/-- labor_standards.py `get_hourly_requirements`: fetch (or default) the
standard, return an empty map when the store row is missing, read the day's
persisted forecasts (generating a day forecast on the fly when there are
none and auto-generation is on), and emit a rounded picker-hours requirement
for every operating hour. -/
noncomputable def get_hourly_requirements (db : DB) (today : ℤ)
    (store_id : Nat) (target_date : ℤ) (auto_generate : Bool := true) :
    List (ℤ × ℝ) × DB :=
  let sd := get_labor_standard db store_id
  let standard := sd.1
  let db1 := sd.2
  match db1.stores.find? (fun st => decide (st.id = store_id)) with
  | none => ([], db1)
  | some store =>
    let rows := db1.order_forecasts.filter (fun f =>
      decide (f.store_id = store_id) && decide (f.date = target_date))
    let forecasts : List (ℤ × ℝ) :=
      if rows.isEmpty && auto_generate then
        match forecast_day db1 today store_id target_date
            ForecastMethod.ensemble with
        | some daily => daily.hourly_forecasts.map
            (fun h => (h.hour, h.predicted_orders))
        | none => []
      else rows.map (fun f => (f.hour, ((f.predicted_orders : ℚ) : ℝ)))
    let start_hour := store.operating_start.getD settings.store_open_hour
    let end_hour := store.operating_end.getD settings.store_close_hour
    (((List.range (end_hour - start_hour).toNat).map (fun (i : ℕ) =>
      let hour := start_hour + (i : ℤ)
      let predicted :=
        ((forecasts.find? (fun p => decide (p.1 = hour))).map
          (fun p => p.2)).getD 0
      (hour, round2 (calculate_required_hours predicted
        ((standard.orders_per_picker_hour : ℚ) : ℝ))))), db1)

def storeC4 : Store := ⟨1, "S1", some 8, some 10⟩

def dbC4 : DB :=
  { stores := [storeC4], order_forecasts := [⟨1, 5, 8, 20, none⟩] }

/-- C4 (counterexample): a store whose productivity is unconfigured (no
LaborStandard row).  The bridge does not fail with StoreNotFound: it
silently creates the default standard (10 orders per picker-hour) and
produces a populated requirements map (20 predicted orders at hour 8 become
2.0 picker-hours). -/
theorem unconfigured_productivity_no_failure_cex :
    dbC4.labor_standards = [] ∧
    (get_hourly_requirements dbC4 0 1 5 true).1 = [(8, 2), (9, 0)] ∧
    (get_hourly_requirements dbC4 0 1 5 true).2 =
      { dbC4 with labor_standards := [⟨1, 10, 4, 8⟩] } := by
  refine ⟨rfl, ?_, ?_⟩ <;>
    · simp [get_hourly_requirements, get_labor_standard,
        calculate_required_hours, round2, dbC4, storeC4,
        settings.default_orders_per_picker_hour,
        settings.default_min_shift_hours, settings.default_max_shift_hours,
        settings.store_open_hour, settings.store_close_hour,
        List.range_succ, round_eq]
      try norm_num

/-- C4 (amended): for a store whose productivity is unconfigured, the bridge
does not fail: `get_labor_standard` yields the default standard
(orders_per_picker_hour 10, shift bounds 4 and 8) and persists it, and
`get_hourly_requirements` produces one requirement entry per operating hour
of the store (an empty map arises only when the store row itself is
missing).  No StoreNotFound error exists on this path. -/
theorem labor_defaults_when_unconfigured (db : DB) (sid : Nat) (today t : ℤ)
    (st : Store)
    (hnone : db.labor_standards.find?
      (fun ls => decide (ls.store_id = sid)) = none)
    (hst : db.stores.find? (fun s => decide (s.id = sid)) = some st) :
    (get_labor_standard db sid).1 = ⟨sid, 10, 4, 8⟩ ∧
    (get_labor_standard db sid).2.labor_standards =
      db.labor_standards ++ [⟨sid, 10, 4, 8⟩] ∧
    (get_hourly_requirements db today sid t true).2.labor_standards =
      db.labor_standards ++ [⟨sid, 10, 4, 8⟩] ∧
    (get_hourly_requirements db today sid t true).1.length =
      (st.operating_end.getD settings.store_close_hour -
        st.operating_start.getD settings.store_open_hour).toNat := by
  have hls : get_labor_standard db sid =
      (⟨sid, 10, 4, 8⟩,
        { db with labor_standards := db.labor_standards ++ [⟨sid, 10, 4, 8⟩] }) := by
    simp [get_labor_standard, hnone, settings.default_orders_per_picker_hour,
      settings.default_min_shift_hours, settings.default_max_shift_hours]
  refine ⟨by rw [hls], by rw [hls], ?_, ?_⟩
  · simp only [get_hourly_requirements, hls]
    rw [hst]
  · simp only [get_hourly_requirements, hls]
    rw [hst]
    dsimp only
    rw [List.length_map, List.length_range]

def ordersC4w : OrderForecast := ⟨3, 9, 8, 15, none⟩

def dbC4w : DB := { stores := [⟨3, "S3", none, none⟩],
                    order_forecasts := [ordersC4w] }

/-- Witness for the C4 theorem at a concrete input. -/
theorem labor_defaults_when_unconfigured_witness :
    dbC4w.labor_standards.find? (fun ls => decide (ls.store_id = 3)) = none ∧
    dbC4w.stores.find? (fun s => decide (s.id = 3)) =
      some ⟨3, "S3", none, none⟩ ∧
    ((get_labor_standard dbC4w 3).1 = ⟨3, 10, 4, 8⟩ ∧
     (get_labor_standard dbC4w 3).2.labor_standards = [⟨3, 10, 4, 8⟩] ∧
     (get_hourly_requirements dbC4w 0 3 9 true).2.labor_standards =
       [⟨3, 10, 4, 8⟩] ∧
     (get_hourly_requirements dbC4w 0 3 9 true).1.length =
       ((⟨3, "S3", none, none⟩ : Store).operating_end.getD
           settings.store_close_hour -
         (⟨3, "S3", none, none⟩ : Store).operating_start.getD
           settings.store_open_hour).toNat) :=
  ⟨rfl, rfl,
    labor_defaults_when_unconfigured dbC4w 3 0 9 ⟨3, "S3", none, none⟩ rfl rfl⟩

/-! ## C5: cold-start forecasts -/

def storeC5 : Store := ⟨1, "S1", some 8, some 10⟩

def dbC5 : DB := { stores := [storeC5] }

/-- C5 (counterexample): the service-level weekly forecast operation
(`forecast_week`), called for a store with no historical rows, tags every
hourly forecast with the REQUESTED method (here "ensemble"), not
"default_pattern" (it does carry zero data points and a warning; the
default-pattern result only arises through the route dispatch). -/
theorem forecast_week_no_history_method_tag_cex :
    dbC5.historical_orders = [] ∧
    (forecast_week dbC5 1000 1 0 ForecastMethod.ensemble).map
      (fun wf => wf.daily_forecasts.map (fun d =>
        d.hourly_forecasts.map (fun h => (h.method, h.data_points_used)))) =
      some (List.replicate 7 (List.replicate 2 ("ensemble", 0))) ∧
    (forecast_week dbC5 1000 1 0 ForecastMethod.ensemble).map
      (fun wf => wf.warnings.head?) =
      some (some "No historical data available - using default estimates") := by
  refine ⟨rfl, ?_, ?_⟩ <;> rfl

/-- Observation on an optional weekly forecast: every hourly forecast is
tagged default_pattern with zero data points, and a warning is present. -/
def allDefaultTagged : Option WeeklyForecast → Bool
  | some wf =>
    (wf.daily_forecasts.all (fun d => d.hourly_forecasts.all (fun h =>
      decide (h.method = "default_pattern") &&
      decide (h.data_points_used = 0)))) && !wf.warnings.isEmpty
  | none => false

/-- C5 (amended): the weekly forecast ROUTE dispatches a store with zero
historical rows to `generate_default_forecast`, whose result tags every
hourly forecast `default_pattern` with `data_points_used = 0` and carries a
warning (given a nonempty operating window; Python's `max()` raises on an
empty one). -/
theorem cold_start_route_defaults (db : DB) (today : ℤ) (sid : Nat)
    (week : ℤ) (method : ForecastMethod) (st : Store)
    (hst : db.stores.find? (fun s => decide (s.id = sid)) = some st)
    (hhist : db.historical_orders.filter
      (fun r => decide (r.store_id = sid)) = [])
    (hmon : weekday week = 0)
    (hrange : st.operating_start.getD 8 < st.operating_end.getD 22) :
    generate_forecast_route db today sid week method =
      generate_default_forecast db sid week ∧
    allDefaultTagged (generate_default_forecast db sid week) = true := by
  constructor
  · simp [generate_forecast_route, hst, hmon, hhist]
  · simp only [generate_default_forecast, hst]
    rw [if_neg (not_le.mpr hrange)]
    simp only [allDefaultTagged, Bool.and_eq_true, List.all_eq_true]
    refine ⟨?_, by simp⟩
    intro d hd
    simp only [List.mem_map] at hd
    obtain ⟨off, _, rfl⟩ := hd
    intro h hh
    simp only [List.mem_map] at hh
    obtain ⟨i, _, rfl⟩ := hh
    simp

/-- Witness for the C5 theorem at a concrete input. -/
theorem cold_start_route_defaults_witness :
    dbC5.stores.find? (fun s => decide (s.id = 1)) = some storeC5 ∧
    dbC5.historical_orders.filter (fun r => decide (r.store_id = 1)) = [] ∧
    weekday 0 = 0 ∧
    storeC5.operating_start.getD 8 < storeC5.operating_end.getD 22 ∧
    (generate_forecast_route dbC5 1000 1 0 ForecastMethod.ensemble =
       generate_default_forecast dbC5 1 0 ∧
     allDefaultTagged (generate_default_forecast dbC5 1 0) = true) :=
  ⟨rfl, rfl, rfl, by decide,
    cold_start_route_defaults dbC5 1000 1 0 ForecastMethod.ensemble storeC5
      rfl rfl rfl (by decide)⟩

/-! ## C2: Constraint Optimizer (app/services/optimizer.py)

The CP-SAT solve is external; the embedding captures optimize's control
flow up to the solve — the store and active-employee pre-checks, the demand
slots, and the empty-demand early return that yields FEASIBLE with no
shifts before any model is built — plus the decision-variable set
(eligibility pruning and locked-shift creation), the hard constraints the
built model imposes, and solution extraction.  `OptimizeOutcome` ties these
together: when the pre-checks pass and demand is non-empty, an OPTIMAL or
FEASIBLE solve yields an assignment of the created variables satisfying
every hard constraint. -/

structure ShiftTemplate where
  start_hour : ℤ
  end_hour : ℤ
  break_minutes : ℤ
  deriving DecidableEq

def ShiftTemplate.duration_hours (t : ShiftTemplate) : ℚ :=
  ((t.end_hour - t.start_hour : ℤ) : ℚ)

def ShiftTemplate.working_hours (t : ShiftTemplate) : ℚ :=
  t.duration_hours - (t.break_minutes : ℚ) / 60

def SHIFT_TEMPLATES : List ShiftTemplate :=
  [⟨8, 16, 30⟩, ⟨9, 17, 30⟩, ⟨10, 18, 30⟩, ⟨11, 19, 30⟩, ⟨12, 20, 30⟩,
   ⟨14, 22, 30⟩, ⟨8, 17, 60⟩, ⟨13, 22, 60⟩]

structure LockedShift where
  employee_id : Nat
  day_index : ℤ
  shift_template_idx : Nat
  deriving DecidableEq

structure ManualOverride where
  employee_id : Nat
  day_index : ℤ
  must_work : Bool := false
  cannot_work : Bool := false
  preferred_shift_idx : Option Nat := none
  deriving DecidableEq

structure EmployeeConstraints where
  employee_id : Nat
  available_days : List ℤ          -- a set of day indices
  preferred_hours : ℤ → Option (ℤ × ℤ)
  time_off_days : List ℤ
  max_hours_remaining : ℚ
  max_days_remaining : ℤ

/-- optimizer.py `_get_employees`: active employees of the store. -/
def get_employees (db : DB) (store_id : Nat) : List Employee :=
  db.employees.filter (fun e =>
    decide (e.store_id = store_id) && decide (e.status = EmployeeStatus.active))

def allDaysList : List ℤ := [0, 1, 2, 3, 4, 5, 6]

/-- One step of the availability loop in `_get_employee_constraints`:
an unavailable row discards the day; an available row with a full preferred
window records (start.hour, end.hour). -/
def ecStep (st : List ℤ × (ℤ → Option (ℤ × ℤ))) (a : Availability) :
    List ℤ × (ℤ → Option (ℤ × ℤ)) :=
  if !a.is_available then (st.1.erase a.day_of_week, st.2)
  else
    match a.preferred_start, a.preferred_end with
    | some ps, some pe =>
      (st.1, fun d =>
        if d = a.day_of_week then some (ps / 60, pe / 60) else st.2 d)
    | _, _ => st

/-- optimizer.py `_get_employee_constraints`. -/
def get_employee_constraints (db : DB) (emp : Employee) (week_start : ℤ) :
    EmployeeConstraints :=
  let availabilities := db.availabilities.filter
    (fun a => decide (a.employee_id = emp.id))
  let st := availabilities.foldl ecStep (allDaysList, fun _ => none)
  let week_end := week_start + 6
  let requests := db.time_off_requests.filter (fun r =>
    decide (r.employee_id = emp.id) &&
    decide (r.status = TimeOffStatus.approved) &&
    decide (r.start_date ≤ week_end) && decide (r.end_date ≥ week_start))
  let covered := fun (d : ℤ) => requests.any (fun r =>
    decide (r.start_date ≤ week_start + d) &&
    decide (week_start + d ≤ r.end_date))
  let time_off_days := allDaysList.filter (fun d => covered d)
  let available_days := st.1.filter (fun d => !covered d)
  let existing := (shiftsJoinSchedule db).filter (fun s =>
    decide (s.employee_id = emp.id) &&
    decide (week_start ≤ s.date) && decide (s.date ≤ week_end))
  let existing_hours := existing.foldl (fun acc s => acc + s.durationHours) 0
  let existing_days := ((existing.map (fun s => s.date)).dedup).length
  ⟨emp.id, available_days, st.2, time_off_days,
    max 0 ((settings.max_hours_per_week : ℚ) - existing_hours),
    max 0 (settings.days_on_per_week - (existing_days : ℤ))⟩

/-- optimizer.py `_get_applicable_shifts`. -/
def get_applicable_shifts (ec : EmployeeConstraints) (day : ℤ)
    (store : Store) : List ShiftTemplate :=
  if day ∉ ec.available_days then []
  else
    let start_hour := store.operating_start.getD 8
    let end_hour := store.operating_end.getD 22
    SHIFT_TEMPLATES.filter (fun t =>
      !(decide (t.start_hour < start_hour) || decide (t.end_hour > end_hour)) &&
      (match ec.preferred_hours day with
       | some pr =>
         !(decide (t.start_hour < pr.1) || decide (t.end_hour > pr.2))
       | none => true) &&
      !decide (t.working_hours > ec.max_hours_remaining))

/-- Decision-variable key: (employee id, day index, template index). -/
abbrev VarKey : Type := Nat × ℤ × Nat

/-- Whether optimize creates variable k during eligibility pruning. -/
def isEligibleKey (db : DB) (store : Store) (week_start : ℤ) (k : VarKey) :
    Bool :=
  match (get_employees db store.id).find? (fun e => decide (e.id = k.1)) with
  | none => false
  | some emp =>
    decide (0 ≤ k.2.1) && decide (k.2.1 < 7) &&
    (match SHIFT_TEMPLATES.get? k.2.2 with
     | some t =>
       decide (t ∈ get_applicable_shifts
         (get_employee_constraints db emp week_start) k.2.1 store)
     | none => false)

/-- All created variables: the eligible ones plus any missing locked ones
(lines 383-392 create a fresh variable for a lock that was pruned away). -/
def modelKeys (db : DB) (store : Store) (week_start : ℤ)
    (locked : List LockedShift) : List VarKey :=
  ((get_employees db store.id).flatMap (fun emp =>
    (List.range 7).flatMap (fun d =>
      (List.range SHIFT_TEMPLATES.length).filterMap (fun tidx =>
        if isEligibleKey db store week_start (emp.id, (d : ℤ), tidx) then
          some (emp.id, (d : ℤ), tidx)
        else none)))) ++
  ((locked.map (fun l => ((l.employee_id, l.day_index, l.shift_template_idx) :
      VarKey))).filter (fun k => !isEligibleKey db store week_start k))

/-- The employee-constraints record the model consults for k's employee
(`emp_constraints[emp_id]`; `none` models the KeyError on a locked employee
who is not an active store employee). -/
def ecOf (db : DB) (store : Store) (week_start : ℤ) (e : Nat) :
    Option EmployeeConstraints :=
  ((get_employees db store.id).find? (fun x => decide (x.id = e))).map
    (fun emp => get_employee_constraints db emp week_start)

/-- The hard constraints the CP model imposes on an assignment of the
created variables: cannot-work overrides zero out the eligible variables of
that (employee, day); must-work overrides demand one of them when any
exists; locked variables are forced to 1; at most one shift per employee and
day; at most min(remaining, 6) worked days per employee; at most
min(remaining, 44) weekly working hours per employee at the 10x integer
scale.  The model is only built after the store, active-employee and
non-empty-demand pre-checks pass (`OptimizeOutcome` below captures those
early returns); a solver status of OPTIMAL or FEASIBLE then yields an
assignment satisfying this predicate. -/
def hardConstraintsB (db : DB) (store : Store) (week_start : ℤ)
    (locked : List LockedShift) (overrides : List ManualOverride)
    (a : VarKey → Bool) : Bool :=
  let keys := modelKeys db store week_start locked
  (overrides.all (fun o =>
    !o.cannot_work ||
    ((List.range SHIFT_TEMPLATES.length).all (fun tidx =>
      !isEligibleKey db store week_start (o.employee_id, o.day_index, tidx) ||
      !a (o.employee_id, o.day_index, tidx))))) &&
  (overrides.all (fun o =>
    o.cannot_work || !o.must_work ||
    (let elig := (List.range SHIFT_TEMPLATES.length).filter (fun tidx =>
      isEligibleKey db store week_start (o.employee_id, o.day_index, tidx))
     elig.isEmpty || elig.any (fun tidx =>
       a (o.employee_id, o.day_index, tidx))))) &&
  (locked.all (fun l => a (l.employee_id, l.day_index, l.shift_template_idx))) &&
  (keys.all (fun k =>
    decide (((keys.filter (fun k2 =>
      decide (k2.1 = k.1) && decide (k2.2.1 = k.2.1))).filter
        (fun k2 => a k2)).length ≤ 1))) &&
  (keys.all (fun k =>
    match ecOf db store week_start k.1 with
    | some ec =>
      decide ((((List.range 7).filter (fun d => keys.any (fun k2 =>
        decide (k2.1 = k.1) && decide (k2.2.1 = (d : ℤ)) && a k2))).length : ℤ) ≤
        min ec.max_days_remaining settings.days_on_per_week)
    | none => false)) &&
  (keys.all (fun k =>
    match ecOf db store week_start k.1 with
    | some ec =>
      decide ((((keys.filter (fun k2 => decide (k2.1 = k.1) && a k2)).map
        (fun k2 => ⌊(SHIFT_TEMPLATES.getD k2.2.2 ⟨0, 0, 0⟩).working_hours * 10⌋)).sum : ℤ) ≤
        ⌊min ec.max_hours_remaining (settings.max_hours_per_week : ℚ) * 10⌋)
    | none => false))

structure ExtractedShift where
  employee_id : Nat
  date : ℤ
  start_hour : ℤ
  end_hour : ℤ
  break_minutes : ℤ
  working_hours : ℚ
  deriving DecidableEq

/-- optimizer.py solution extraction: one proposed shift per variable
assigned 1. -/
def extractShifts (week_start : ℤ) (keys : List VarKey) (a : VarKey → Bool) :
    List ExtractedShift :=
  (keys.filter (fun k => a k)).map (fun k =>
    let t := SHIFT_TEMPLATES.getD k.2.2 ⟨0, 0, 0⟩
    ⟨k.1, week_start + k.2.1, t.start_hour, t.end_hour, t.break_minutes,
      t.working_hours⟩)

/-- The shift date falls inside an approved time-off request of the assigned
employee. -/
def dateInApprovedTimeOff (db : DB) (e : Nat) (d : ℤ) : Bool :=
  db.time_off_requests.any (fun r =>
    decide (r.employee_id = e) && decide (r.status = TimeOffStatus.approved) &&
    decide (r.start_date ≤ d) && decide (d ≤ r.end_date))

/-- optimizer.py `_get_demand_slots`: for each day of the week, collect the
operating hours whose required picker-hours (from the labor service) are
positive, threading the session (get_labor_standard may persist a default
standard on the first call). -/
noncomputable def get_demand_slots (db : DB) (today : ℤ) (store_id : Nat)
    (week_start : ℤ) : List (ℤ × ℤ × ℝ) × DB :=
  match db.stores.find? (fun st => decide (st.id = store_id)) with
  | none => ([], db)
  | some store =>
    let start_hour := store.operating_start.getD 8
    let end_hour := store.operating_end.getD 22
    (List.range 7).foldl
      (fun (acc : List (ℤ × ℤ × ℝ) × DB) (day_index : ℕ) =>
        let target_date := week_start + (day_index : ℤ)
        let rq := get_hourly_requirements acc.2 today store_id target_date true
        (acc.1 ++ ((List.range (end_hour - start_hour).toNat).filterMap
          (fun (i : ℕ) =>
            let hour := start_hour + (i : ℤ)
            let required : ℝ := ((rq.1.find? (fun p =>
              decide (p.1 = hour))).map (fun p => p.2)).getD 0
            if 0 < required then some ((day_index : ℤ), hour, required)
            else none)), rq.2)) ([], db)

structure OptimizeResult where
  status : String
  shifts : List ExtractedShift

/-- The outcomes of optimize (optimizer.py 288-549): ERROR on a missing
store or no active employees; the empty-demand early return, which is
FEASIBLE with an empty shift list BEFORE the CP model is built; the
solver's INFEASIBLE and TIMEOUT returns, which carry no shifts; and an
OPTIMAL or FEASIBLE solve, which is an assignment of the created variables
satisfying every hard constraint, extracted to one shift per assigned
variable.  (The session rows `get_demand_slots` may add touch only
labor_standards, which none of the eligibility or constraint definitions
read, so the remaining steps read the original session.) -/
inductive OptimizeOutcome (db : DB) (today : ℤ) (store_id : Nat)
    (week_start : ℤ) (locked : List LockedShift)
    (overrides : List ManualOverride) : OptimizeResult → Prop
  | storeMissing :
      db.stores.find? (fun st => decide (st.id = store_id)) = none →
      OptimizeOutcome db today store_id week_start locked overrides
        ⟨"error", []⟩
  | noEmployees (store : Store) :
      db.stores.find? (fun st => decide (st.id = store_id)) = some store →
      get_employees db store_id = [] →
      OptimizeOutcome db today store_id week_start locked overrides
        ⟨"error", []⟩
  | emptyDemand (store : Store) :
      db.stores.find? (fun st => decide (st.id = store_id)) = some store →
      get_employees db store_id ≠ [] →
      (get_demand_slots db today store_id week_start).1 = [] →
      OptimizeOutcome db today store_id week_start locked overrides
        ⟨"feasible", []⟩
  | noSolution (store : Store) (stat : String) :
      db.stores.find? (fun st => decide (st.id = store_id)) = some store →
      get_employees db store_id ≠ [] →
      (get_demand_slots db today store_id week_start).1 ≠ [] →
      stat = "infeasible" ∨ stat = "timeout" →
      OptimizeOutcome db today store_id week_start locked overrides
        ⟨stat, []⟩
  | solved (store : Store) (a : VarKey → Bool) (stat : String) :
      db.stores.find? (fun st => decide (st.id = store_id)) = some store →
      get_employees db store_id ≠ [] →
      (get_demand_slots db today store_id week_start).1 ≠ [] →
      hardConstraintsB db store week_start locked overrides a = true →
      stat = "optimal" ∨ stat = "feasible" →
      OptimizeOutcome db today store_id week_start locked overrides
        ⟨stat, extractShifts week_start
          (modelKeys db store week_start locked) a⟩

lemma mem_fst_foldl_ecStep :
    ∀ (l : List Availability) (st : List ℤ × (ℤ → Option (ℤ × ℤ))) (d : ℤ),
      d ∈ (l.foldl ecStep st).1 → d ∈ st.1 := by
  intro l
  induction l with
  | nil => intro st d h; exact h
  | cons a t ih =>
    intro st d h
    rw [List.foldl_cons] at h
    have h2 := ih (ecStep st a) d h
    unfold ecStep at h2
    split at h2
    · exact List.mem_of_mem_erase h2
    · split at h2 <;> exact h2

lemma applicable_day_not_in_time_off (db : DB) (emp : Employee)
    (week_start d : ℤ) (store : Store) (t : ShiftTemplate)
    (ht : t ∈ get_applicable_shifts
      (get_employee_constraints db emp week_start) d store) :
    dateInApprovedTimeOff db emp.id (week_start + d) = false := by
  have hd : d ∈ (get_employee_constraints db emp week_start).available_days := by
    by_contra hnd
    rw [get_applicable_shifts, if_pos hnd] at ht
    exact absurd ht (List.not_mem_nil t)
  simp only [get_employee_constraints] at hd
  rw [List.mem_filter] at hd
  obtain ⟨hmem, hncov⟩ := hd
  have hall : d ∈ allDaysList := mem_fst_foldl_ecStep _ _ d hmem
  have h06 : 0 ≤ d ∧ d ≤ 6 := by
    simp only [allDaysList, List.mem_cons, List.not_mem_nil, or_false] at hall
    rcases hall with rfl | rfl | rfl | rfl | rfl | rfl | rfl <;> omega
  simp only [Bool.not_eq_true'] at hncov
  rw [List.any_eq_false] at hncov
  rw [dateInApprovedTimeOff]
  refine Bool.eq_false_iff.mpr (fun habs => ?_)
  rw [List.any_eq_true] at habs
  obtain ⟨r, hrmem, hrp⟩ := habs
  simp only [Bool.and_eq_true, decide_eq_true_eq] at hrp
  obtain ⟨⟨⟨h1, h2⟩, h3⟩, h4⟩ := hrp
  have hrfilter : r ∈ db.time_off_requests.filter (fun r =>
      decide (r.employee_id = emp.id) &&
      decide (r.status = TimeOffStatus.approved) &&
      decide (r.start_date ≤ week_start + 6) &&
      decide (r.end_date ≥ week_start)) := by
    rw [List.mem_filter]
    refine ⟨hrmem, ?_⟩
    simp only [Bool.and_eq_true, decide_eq_true_eq]
    exact ⟨⟨⟨h1, h2⟩, by omega⟩, by omega⟩
  have hcontr := hncov r hrfilter
  simp only [Bool.and_eq_true, decide_eq_true_eq] at hcontr
  exact hcontr ⟨h3, h4⟩

lemma eligible_key_day_not_in_time_off (db : DB) (store : Store)
    (week_start : ℤ) (k : VarKey)
    (hk : isEligibleKey db store week_start k = true) :
    dateInApprovedTimeOff db k.1 (week_start + k.2.1) = false := by
  rw [isEligibleKey] at hk
  split at hk
  · simp at hk
  · rename_i emp heq
    rw [Bool.and_eq_true] at hk
    obtain ⟨hab, hmatch⟩ := hk
    split at hmatch
    · rename_i t hts
      have ht := of_decide_eq_true hmatch
      have hid : emp.id = k.1 := by
        have := List.find?_some heq
        simpa using this
      rw [← hid]
      exact applicable_day_not_in_time_off db emp week_start k.2.1 store t ht
    · simp at hmatch

/-- C2: every outcome of an optimize call without locked shifts — the
pre-check ERRORs, the empty-demand early return (FEASIBLE with no shifts,
before the model is built), INFEASIBLE/TIMEOUT, and any OPTIMAL or FEASIBLE
solve — emits no shift whose date falls inside an approved time-off request
of the assigned employee, because eligibility pruning discards time-off
days before variable creation.  (The counterexample shows the locked-shift
path breaks this.) -/
theorem optimize_output_avoids_time_off_without_locks
    (db : DB) (today : ℤ) (store_id : Nat) (week_start : ℤ)
    (overrides : List ManualOverride) (r : OptimizeResult)
    (h : OptimizeOutcome db today store_id week_start [] overrides r) :
    r.shifts.all (fun s => !dateInApprovedTimeOff db s.employee_id s.date)
      = true := by
  cases h with
  | storeMissing h1 => rfl
  | noEmployees store h1 h2 => rfl
  | emptyDemand store h1 h2 h3 => rfl
  | noSolution store stat h1 h2 h3 h4 => rfl
  | solved store a stat h1 h2 h3 hc h5 =>
    dsimp only
    rw [List.all_eq_true]
    intro s hs
    rw [extractShifts, List.mem_map] at hs
    obtain ⟨k, hkmem, hsk⟩ := hs
    rw [List.mem_filter] at hkmem
    obtain ⟨hkeys, hak⟩ := hkmem
    have helig : isEligibleKey db store week_start k = true := by
      rw [modelKeys] at hkeys
      simp only [List.map_nil, List.filter_nil, List.append_nil] at hkeys
      rw [List.mem_flatMap] at hkeys
      obtain ⟨emp, _, hkeys⟩ := hkeys
      rw [List.mem_flatMap] at hkeys
      obtain ⟨dd, _, hkeys⟩ := hkeys
      rw [List.mem_filterMap] at hkeys
      obtain ⟨tidx, _, htid⟩ := hkeys
      by_cases hE : isEligibleKey db store week_start (emp.id, (dd : ℤ), tidx) = true
      · rw [if_pos hE] at htid
        rw [← Option.some.inj htid]
        exact hE
      · rw [if_neg hE] at htid
        exact absurd htid (by simp)
    have hto := eligible_key_day_not_in_time_off db store week_start k helig
    rw [← hsk]
    simp [hto]

def empC2 : Employee := ⟨1, 1, 1, EmployeeStatus.active⟩

def storeC2 : Store := ⟨1, "S1", some 8, some 9⟩

/-- Employee 1 is active; their approved time off covers the whole target
week (days 0-6); the labor standard is configured (10 orders per
picker-hour); a persisted forecast of 10 orders at hour 8 on each day of
the week makes the demand slots non-empty, so optimize reaches the CP
model instead of the empty-demand early return. -/
def dbC2 : DB :=
  { stores := [storeC2], employees := [empC2],
    time_off_requests := [⟨1, 1, 0, 6, TimeOffStatus.approved⟩],
    labor_standards := [⟨1, 10, 4, 8⟩],
    order_forecasts := [⟨1, 0, 8, 10, none⟩, ⟨1, 1, 8, 10, none⟩,
      ⟨1, 2, 8, 10, none⟩, ⟨1, 3, 8, 10, none⟩, ⟨1, 4, 8, 10, none⟩,
      ⟨1, 5, 8, 10, none⟩, ⟨1, 6, 8, 10, none⟩] }

def lockedC2 : List LockedShift := [⟨1, 0, 0⟩]

def aStarC2 : VarKey → Bool := fun _ => true

lemma modelKeysC2 :
    modelKeys dbC2 storeC2 0 lockedC2 = [((1 : ℕ), ((0 : ℤ), (0 : ℕ)))] := by
  decide

lemma demandC2_eq : (get_demand_slots dbC2 0 1 0).1 =
    [(0, 8, 1), (1, 8, 1), (2, 8, 1), (3, 8, 1), (4, 8, 1), (5, 8, 1),
     (6, 8, 1)] := by
  simp [get_demand_slots, get_hourly_requirements, get_labor_standard,
    calculate_required_hours, round2, dbC2, storeC2, empC2,
    List.range_succ, List.filter, List.find?, round_eq]
  norm_num [List.filterMap_cons, List.filterMap_nil]

theorem optimize_output_avoids_time_off_without_locks_witness :
    OptimizeOutcome dbC2 0 1 0 [] [] ⟨"feasible",
      extractShifts 0 (modelKeys dbC2 storeC2 0 []) (fun _ => false)⟩ ∧
    ((⟨"feasible", extractShifts 0 (modelKeys dbC2 storeC2 0 [])
      (fun _ => false)⟩ : OptimizeResult)).shifts.all
      (fun s => !dateInApprovedTimeOff dbC2 s.employee_id s.date) = true := by
  have hout : OptimizeOutcome dbC2 0 1 0 [] [] ⟨"feasible",
      extractShifts 0 (modelKeys dbC2 storeC2 0 []) (fun _ => false)⟩ :=
    OptimizeOutcome.solved storeC2 (fun _ => false) "feasible" rfl
      (by decide) (by rw [demandC2_eq]; simp) (by decide) (Or.inr rfl)
  exact ⟨hout,
    optimize_output_avoids_time_off_without_locks dbC2 0 1 0 [] _ hout⟩

/-! ## C7: Confidence-interval bounds of the forecasting methods -/

/-- The (predicted, ci_low, ci_high) triple is well-ordered with a
nonnegative lower bound. -/
abbrev ciBounds (r : ℝ × ℝ × ℝ) : Prop :=
  0 ≤ r.2.1 ∧ r.2.1 ≤ r.1 ∧ r.1 ≤ r.2.2

lemma ciBounds_triple (m mg : ℝ) (h0 : 0 ≤ m) (h1 : 0 ≤ mg) :
    ciBounds (m, max 0 (m - mg), m + mg) := by
  refine ⟨le_max_left 0 _, max_le h0 (by linarith), ?_⟩
  show m ≤ m + mg
  linarith

lemma ciBounds_zero : ciBounds ((0 : ℝ), (0 : ℝ), (0 : ℝ)) :=
  ⟨le_refl 0, le_refl 0, le_refl 0⟩

lemma foldl_smooth_nonneg (rest : List ℝ) (l0 : ℝ) (h0 : 0 ≤ l0)
    (h : ∀ v ∈ rest, 0 ≤ v) :
    0 ≤ rest.foldl (fun l v => 0.3 * v + (1 - 0.3) * l) l0 := by
  induction rest generalizing l0 with
  | nil => exact h0
  | cons v t ih =>
    rw [List.foldl_cons]
    refine ih _ ?_ (fun x hx => h x (List.mem_cons_of_mem _ hx))
    have hv : 0 ≤ v := h v (List.mem_cons_self _ _)
    have ha := mul_nonneg (by norm_num : (0 : ℝ) ≤ 0.3) hv
    have hb := mul_nonneg (by norm_num : (0 : ℝ) ≤ 1 - 0.3) h0
    linarith

lemma foldl_errors_nonneg (rest : List ℝ) (init : ℝ × List ℝ)
    (h : ∀ e ∈ init.2, 0 ≤ e) :
    ∀ e ∈ (rest.foldl (fun (p : ℝ × List ℝ) v =>
      (0.3 * v + (1 - 0.3) * p.1, p.2 ++ [|v - p.1|])) init).2, 0 ≤ e := by
  induction rest generalizing init with
  | nil => exact h
  | cons v t ih =>
    rw [List.foldl_cons]
    refine ih _ ?_
    intro e he
    rcases List.mem_append.mp he with h1 | h1
    · exact h _ h1
    · rw [List.mem_singleton] at h1
      rw [h1]
      exact abs_nonneg _

lemma simple_average_ciBounds (pts : List (ℤ × ℚ))
    (hnn : ∀ p ∈ pts, 0 ≤ p.2) : ciBounds (simple_average pts) := by
  rw [simple_average]
  split
  · exact ciBounds_zero
  · dsimp only
    apply ciBounds_triple
    · apply div_nonneg
      · apply List.sum_nonneg
        intro x hx
        simp only [List.mem_map] at hx
        obtain ⟨p, hp, rfl⟩ := hx
        exact_mod_cast hnn p hp
      · positivity
    · split
      · positivity
      · refine mul_nonneg (div_nonneg ?_ ?_) (by norm_num)
        · apply List.sum_nonneg
          intro x hx
          simp only [List.mem_map] at hx
          obtain ⟨p, hp, rfl⟩ := hx
          exact_mod_cast hnn p hp
        · positivity

lemma weighted_average_ciBounds (pts : List (ℤ × ℚ)) (ref : ℤ)
    (hnn : ∀ p ∈ pts, 0 ≤ p.2) : ciBounds (weighted_average pts ref) := by
  rw [weighted_average]
  split
  · exact ciBounds_zero
  · dsimp only
    split
    · exact ciBounds_zero
    · apply ciBounds_triple
      · apply div_nonneg
        · apply List.sum_nonneg
          intro x hx
          simp only [List.mem_map] at hx
          obtain ⟨_, ⟨q, hq, rfl⟩, rfl⟩ := hx
          have hq' : q ∈ pts := (mem_stableSortBy _ _ _).mp hq
          dsimp only
          refine mul_nonneg ?_ ?_
          · exact_mod_cast hnn q hq'
          · positivity
        · apply List.sum_nonneg
          intro x hx
          simp only [List.mem_map] at hx
          obtain ⟨_, ⟨q, hq, rfl⟩, rfl⟩ := hx
          dsimp only
          positivity
      · split
        · positivity
        · refine mul_nonneg (div_nonneg ?_ ?_) (by norm_num)
          · apply List.sum_nonneg
            intro x hx
            simp only [List.mem_map] at hx
            obtain ⟨_, ⟨q, hq, rfl⟩, rfl⟩ := hx
            have hq' : q ∈ pts := (mem_stableSortBy _ _ _).mp hq
            dsimp only
            refine mul_nonneg ?_ ?_
            · exact_mod_cast hnn q hq'
            · positivity
          · apply List.sum_nonneg
            intro x hx
            simp only [List.mem_map] at hx
            obtain ⟨_, ⟨q, hq, rfl⟩, rfl⟩ := hx
            dsimp only
            positivity

lemma exponential_smoothing_ciBounds (pts : List (ℤ × ℚ))
    (hnn : ∀ p ∈ pts, 0 ≤ p.2) : ciBounds (exponential_smoothing pts) := by
  rw [exponential_smoothing]
  split
  · exact ciBounds_zero
  · dsimp only
    split
    · exact ciBounds_zero
    · rename_i v0 rest heq
      have hvals : ∀ v ∈ v0 :: rest, 0 ≤ v := by
        rw [← heq]
        intro v hv
        simp only [List.mem_map] at hv
        obtain ⟨q, hq, rfl⟩ := hv
        exact_mod_cast hnn q ((mem_stableSortBy _ _ _).mp hq)
      have hv0 : 0 ≤ v0 := hvals v0 (List.mem_cons_self _ _)
      have hrest : ∀ v ∈ rest, 0 ≤ v :=
        fun v hv => hvals v (List.mem_cons_of_mem _ hv)
      apply ciBounds_triple
      · exact foldl_smooth_nonneg rest v0 hv0 hrest
      · split
        · exact mul_nonneg (foldl_smooth_nonneg rest v0 hv0 hrest)
            (by norm_num)
        · refine mul_nonneg (by norm_num) (div_nonneg ?_ ?_)
          · exact List.sum_nonneg
              (foldl_errors_nonneg rest (v0, []) (by intro e he; simp at he))
          · positivity

lemma ensemble_forecast_ciBounds (pts : List (ℤ × ℚ)) (ref : ℤ)
    (hnn : ∀ p ∈ pts, 0 ≤ p.2) : ciBounds (ensemble_forecast pts ref) := by
  obtain ⟨hs1, hs2, hs3⟩ := simple_average_ciBounds pts hnn
  obtain ⟨hw1, hw2, hw3⟩ := weighted_average_ciBounds pts ref hnn
  obtain ⟨he1, he2, he3⟩ := exponential_smoothing_ciBounds pts hnn
  rw [ensemble_forecast]
  refine ⟨?_, ?_, ?_⟩
  · dsimp only
    exact le_min hs1 (le_min hw1 he1)
  · dsimp only
    have m1 := min_le_left (simple_average pts).2.1
      (min (weighted_average pts ref).2.1 (exponential_smoothing pts).2.1)
    have m2 := min_le_right (simple_average pts).2.1
      (min (weighted_average pts ref).2.1 (exponential_smoothing pts).2.1)
    have m3 := min_le_left (weighted_average pts ref).2.1
      (exponential_smoothing pts).2.1
    have m4 := min_le_right (weighted_average pts ref).2.1
      (exponential_smoothing pts).2.1
    linarith
  · dsimp only
    have m1 := le_max_left (simple_average pts).2.2
      (max (weighted_average pts ref).2.2 (exponential_smoothing pts).2.2)
    have m2 := le_max_right (simple_average pts).2.2
      (max (weighted_average pts ref).2.2 (exponential_smoothing pts).2.2)
    have m3 := le_max_left (weighted_average pts ref).2.2
      (exponential_smoothing pts).2.2
    have m4 := le_max_right (weighted_average pts ref).2.2
      (exponential_smoothing pts).2.2
    linarith

/-- C7: for every non-empty historical sample bucket of nonnegative order
counts, every forecasting method returns a triple satisfying
0 ≤ ci_low ≤ predicted ≤ ci_high, and the ensemble point estimate lies
within [min, max] of the three constituent methods' point estimates. -/
theorem forecast_methods_ci_bounds (pts : List (ℤ × ℚ)) (ref : ℤ)
    (hne : pts ≠ []) (hnn : ∀ p ∈ pts, 0 ≤ p.2) :
    ciBounds (simple_average pts) ∧
    ciBounds (weighted_average pts ref) ∧
    ciBounds (exponential_smoothing pts) ∧
    ciBounds (ensemble_forecast pts ref) ∧
    min (simple_average pts).1 (min (weighted_average pts ref).1
      (exponential_smoothing pts).1) ≤ (ensemble_forecast pts ref).1 ∧
    (ensemble_forecast pts ref).1 ≤ max (simple_average pts).1
      (max (weighted_average pts ref).1 (exponential_smoothing pts).1) := by
  refine ⟨simple_average_ciBounds pts hnn,
    weighted_average_ciBounds pts ref hnn,
    exponential_smoothing_ciBounds pts hnn,
    ensemble_forecast_ciBounds pts ref hnn, ?_, ?_⟩
  · rw [ensemble_forecast]
    dsimp only
    have m1 := min_le_left (simple_average pts).1
      (min (weighted_average pts ref).1 (exponential_smoothing pts).1)
    have m2 := min_le_right (simple_average pts).1
      (min (weighted_average pts ref).1 (exponential_smoothing pts).1)
    have m3 := min_le_left (weighted_average pts ref).1
      (exponential_smoothing pts).1
    have m4 := min_le_right (weighted_average pts ref).1
      (exponential_smoothing pts).1
    linarith
  · rw [ensemble_forecast]
    dsimp only
    have m1 := le_max_left (simple_average pts).1
      (max (weighted_average pts ref).1 (exponential_smoothing pts).1)
    have m2 := le_max_right (simple_average pts).1
      (max (weighted_average pts ref).1 (exponential_smoothing pts).1)
    have m3 := le_max_left (weighted_average pts ref).1
      (exponential_smoothing pts).1
    have m4 := le_max_right (weighted_average pts ref).1
      (exponential_smoothing pts).1
    linarith

theorem forecast_methods_ci_bounds_witness :
    (([((0 : ℤ), (5 : ℚ))] : List (ℤ × ℚ)) ≠ []) ∧ (0 : ℚ) ≤ 5 ∧
    ciBounds (ensemble_forecast [((0 : ℤ), (5 : ℚ))] 0) :=
  ⟨by simp, by norm_num,
   (forecast_methods_ci_bounds [((0 : ℤ), (5 : ℚ))] 0 (by simp)
     (by
       intro p hp
       simp only [List.mem_singleton] at hp
       subst hp
       norm_num)).2.2.2.1⟩

/-- The pre-checks pass at dbC2 (store found, one active employee, demand
slots non-empty thanks to the persisted forecasts), so optimize builds the
CP model instead of taking the empty-demand early return.  Approved time
off covering the whole week means eligibility pruning creates no
variables; the locked shift (employee 1, day 0, template 0) forces a
variable anyway, the all-true assignment satisfies every hard constraint,
and the FEASIBLE outcome emits a shift dated inside the approved time-off
range. -/
theorem locked_shift_on_time_off_day_cex :
    OptimizeOutcome dbC2 0 1 0 lockedC2 []
      ⟨"feasible", [⟨1, 0, 8, 16, 30, 15/2⟩]⟩ ∧
    dateInApprovedTimeOff dbC2 1 0 = true := by
  refine ⟨?_, by decide⟩
  have hc : hardConstraintsB dbC2 storeC2 0 lockedC2 [] aStarC2 = true := by
    simp only [hardConstraintsB, modelKeysC2, Bool.and_eq_true]
    refine ⟨⟨⟨⟨⟨by decide, by decide⟩, by decide⟩, by decide⟩, by decide⟩, ?_⟩
    simp only [List.all_cons, List.all_nil, Bool.and_true]
    simp only [ecOf, dbC2, storeC2, empC2, get_employees, get_employee_constraints,
      shiftsJoinSchedule, allDaysList, ecStep, SHIFT_TEMPLATES,
      ShiftTemplate.working_hours, ShiftTemplate.duration_hours,
      settings.max_hours_per_week, settings.days_on_per_week,
      List.filter, List.find?, List.foldl, List.map, List.getD, List.get?,
      Option.map, Option.getD, aStarC2, decide_eq_true_eq]
    norm_num
  have hext : extractShifts 0 (modelKeys dbC2 storeC2 0 lockedC2) aStarC2 =
      [⟨1, 0, 8, 16, 30, 15/2⟩] := by
    rw [modelKeysC2]
    simp only [extractShifts, aStarC2, List.filter, List.map, List.getD,
      List.get?, Option.getD, SHIFT_TEMPLATES, ShiftTemplate.working_hours,
      ShiftTemplate.duration_hours]
    norm_num
  rw [← hext]
  exact OptimizeOutcome.solved storeC2 aStarC2 "feasible" rfl (by decide)
    (by rw [demandC2_eq]; simp) hc (Or.inr rfl)

end PickerScheduler
